import Mathlib

/-!
Verification of the trial-score scoring and standings engine.

The definitions below are a shallow embedding of the server code
(`server/db.js`, `server/routes/scores.js`) and of the two standings
renderers (the final-scores client page and the CSV export route).
JavaScript arrays become `List`, object records become structures,
`null` becomes `Option`, ISO-8601 timestamp strings (compared
lexicographically in the source, which coincides with chronological
order) become `Nat` with `0` standing for the empty string, and the
wall clock becomes an explicit `now` field that advances on every
mutation.  Numeric ids arrive as strings in the routes and are passed
through `parseInt`; here they are `Nat` throughout.
-/

namespace TrialScore

/-- A registered rider; `classes` holds the ids of the classes the rider
is entered in (mirrors the `Competitor` interface and `db.competitors`). -/
structure Competitor where
  id : Nat
  number : Nat
  name : String
  classes : List String
deriving Repr, DecidableEq

/-- A course section from `settings.sections`. -/
structure Section where
  id : Nat
  name : String
deriving Repr, DecidableEq

/-- A class configuration from `settings.classes`. -/
structure ClassConfig where
  id : String
  name : String
  laps : Nat
  section_ids : List Nat
deriving Repr, DecidableEq

/-- One recorded attempt (a row of `db.scores`); `points = none` models
`null`, `created_at`/`updated_at` are clock readings. -/
structure Score where
  id : Nat
  competitor_id : Nat
  section_id : Nat
  lap : Nat
  points : Option Int
  is_dnf : Bool
  created_at : Nat
  updated_at : Option Nat
deriving Repr, DecidableEq

deriving instance DecidableEq for Except

/-- The in-memory database object of `server/db.js` (persistence via
`saveDb` is outside the model); `nextScoreId` is `db.nextIds.score` and
`now` is the wall clock read by `new Date()`. -/
structure Db where
  competitors : List Competitor
  scores : List Score
  sections : List Section
  classes : List ClassConfig
  nextScoreId : Nat
  now : Nat
deriving Repr, DecidableEq

/-- Result of `canStartNewLap`. -/
structure LapStatus where
  canScore : Bool
  currentLap : Nat
  incompleteSections : List String
  maxLap : Nat
deriving Repr, DecidableEq

/-- `getCompetitor` from `db.js`. -/
def getCompetitor (db : Db) (id : Nat) : Option Competitor :=
  db.competitors.find? (fun c => c.id == id)

/-- `getSection` from `db.js` (sections live in `settings.sections`). -/
def getSection (db : Db) (id : Nat) : Option Section :=
  db.sections.find? (fun s => s.id == id)

/-- `getNextLap` from `db.js`: one past the highest lap already recorded
for this competitor at this section. -/
def getNextLap (db : Db) (competitorId sectionId : Nat) : Nat :=
  let scores := db.scores.filter (fun s =>
    s.competitor_id == competitorId && s.section_id == sectionId)
  scores.foldl (fun mx s => max mx s.lap) 0 + 1

/-- The inner `reduce`/`Math.max` of `canStartNewLap`: highest lap among
the given scores that sit at section `secId`. -/
def sectionMaxLap (scores : List Score) (secId : Nat) : Nat :=
  (scores.filter (fun s => s.section_id == secId)).foldl (fun mx s => max mx s.lap) 0

/-- `classMaxLap` of `canStartNewLap`: highest lap the competitor has
recorded at any section of the class. -/
def classMaxLapOf (competitorScores : List Score) (classSectionIds : List Nat) : Nat :=
  classSectionIds.foldl (fun m secId => max m (sectionMaxLap competitorScores secId)) 0

/-- The section-name collection loop of `canStartNewLap`: for every class
section without a score at `classMaxLap`, push the section's name (if the
section exists and the name is not already listed). -/
def pushMissing (db : Db) (competitorScores : List Score) (classMaxLap : Nat)
    (worst : List String) (classSectionIds : List Nat) : List String :=
  classSectionIds.foldl (fun w secId =>
    if competitorScores.any (fun s => s.section_id == secId && s.lap == classMaxLap) then w
    else
      match getSection db secId with
      | some sec => if w.contains sec.name then w else w ++ [sec.name]
      | none => w) worst

/-- Body of the `for (const cls of relevantClasses)` loop of
`canStartNewLap`; the accumulator carries `(worstIncompleteSections, currentLap)`. -/
def lapLoopStep (db : Db) (competitorId : Nat) (acc : List String × Nat)
    (cls : ClassConfig) : List String × Nat :=
  let competitorScores := db.scores.filter (fun s =>
    s.competitor_id == competitorId && cls.section_ids.contains s.section_id)
  let classMaxLap := classMaxLapOf competitorScores cls.section_ids
  if classMaxLap == 0 then acc
  else (pushMissing db competitorScores classMaxLap acc.1 cls.section_ids,
        max acc.2 classMaxLap)

/-- `canStartNewLap` from `db.js`: the progression gate. -/
def canStartNewLap (db : Db) (competitorId sectionId : Nat) : LapStatus :=
  match getCompetitor db competitorId with
  | none => { canScore := true, currentLap := 1, incompleteSections := [], maxLap := 3 }
  | some competitor =>
    let relevantClasses := db.classes.filter (fun cls =>
      competitor.classes.contains cls.id && cls.section_ids.contains sectionId)
    if relevantClasses.isEmpty then
      { canScore := true, currentLap := 1, incompleteSections := [], maxLap := 3 }
    else
      let maxAllowedLap := relevantClasses.foldl (fun m cls => max m cls.laps) 0
      let res := relevantClasses.foldl (lapLoopStep db competitorId) ([], 1)
      { canScore := res.1.isEmpty, currentLap := res.2,
        incompleteSections := res.1, maxLap := maxAllowedLap }

/-- `createScore` from `db.js`.  The id counter is advanced before the
duplicate check (as in the source, where `db.nextIds.score++` precedes the
`throw`); on success the row is appended and the clock advances. -/
def createScore (db : Db) (competitor_id section_id lap : Nat)
    (points : Option Int) (is_dnf : Bool) : Db × Except String Score :=
  let score : Score :=
    { id := db.nextScoreId, competitor_id := competitor_id, section_id := section_id,
      lap := lap, points := points, is_dnf := is_dnf,
      created_at := db.now, updated_at := none }
  let db2 := { db with nextScoreId := db.nextScoreId + 1 }
  if db.scores.any (fun s =>
      s.competitor_id == competitor_id && s.section_id == section_id && s.lap == lap)
  then (db2, .error ("Score already exists for this lap"))
  else ({ db2 with scores := db2.scores ++ [score], now := db2.now + 1 }, .ok score)

/-- The `findIndex` + in-place mutation of `updateScore`: replace the
outcome of the first score with the given id, or report `none`. -/
def updateScoreList (now : Nat) (id : Nat) (points : Option Int) (is_dnf : Bool) :
    List Score → Option (List Score × Score)
  | [] => none
  | s :: rest =>
    if s.id == id then
      let upd := { s with points := points, is_dnf := is_dnf, updated_at := some now }
      some (upd :: rest, upd)
    else
      match updateScoreList now id points is_dnf rest with
      | some (l, u) => some (s :: l, u)
      | none => none

/-- `updateScore` from `db.js`: corrections replace only the outcome and
stamp `updated_at`; an unknown id throws before any mutation. -/
def updateScore (db : Db) (id : Nat) (points : Option Int) (is_dnf : Bool) :
    Db × Except String Score :=
  match updateScoreList db.now id points is_dnf db.scores with
  | none => (db, .error ("Score not found"))
  | some (l, u) => ({ db with scores := l, now := db.now + 1 }, .ok u)

/-- `deleteScore` from `db.js`. -/
def deleteScore (db : Db) (id : Nat) : Db :=
  { db with scores := db.scores.filter (fun s => !(s.id == id)) }

/-- The rejection message of the course-complete branch of
`POST /api/scores`. -/
def courseCompleteMsg (maxLap : Nat) : String :=
  "All " ++ toString maxLap ++ " laps already scored for this section"

/-- The rejection message of the blocked branch of `POST /api/scores`. -/
def blockedMsg (currentLap : Nat) (missing : List String) : String :=
  "Must complete Lap " ++ toString currentLap ++ " first. Missing: "
    ++ String.intercalate ", " missing

/-- The `POST /` handler of `routes/scores.js`: derive the lap with
`getNextLap`, consult the gate, apply the dynamic lap cap
(`lapStatus.maxLap || 3`), and finally `createScore` with the request's
`points` and `is_dnf` passed through. -/
def postScore (db : Db) (competitor_id section_id : Nat)
    (points : Option Int) (is_dnf : Bool) : Db × Except String Score :=
  let lap := getNextLap db competitor_id section_id
  let lapStatus := canStartNewLap db competitor_id section_id
  let maxLap := if lapStatus.maxLap == 0 then 3 else lapStatus.maxLap
  if lap > maxLap then
    (db, .error (courseCompleteMsg maxLap))
  else if lap > lapStatus.currentLap && !lapStatus.canScore then
    (db, .error (blockedMsg lapStatus.currentLap lapStatus.incompleteSections))
  else
    createScore db competitor_id section_id lap points is_dnf

/-- The `PUT /:id` handler of `routes/scores.js`: it forwards the body's
`points` and `is_dnf` to `updateScore` and never consults the gate. -/
def putScore (db : Db) (id : Nat) (points : Option Int) (is_dnf : Bool) :
    Db × Except String Score :=
  updateScore db id points is_dnf

/-- Per-class aggregate of `getLeaderboard` (`total`, `sections_done`,
`dnf_count`, `last_scored_at`, with `0` for the initial empty string). -/
structure ClassTotals where
  total : Int
  sections_done : Nat
  dnf_count : Nat
  last_scored_at : Nat
deriving Repr, DecidableEq

/-- The accumulation loop of `getLeaderboard` for one competitor and one
class: every attempt at a class section counts toward `sections_done`,
non-`null` points are summed, and `last_scored_at` tracks the maximum
`created_at`. -/
def classTotalsFor (db : Db) (c : Competitor) (cls : ClassConfig) : ClassTotals :=
  let competitorScores := db.scores.filter (fun s => s.competitor_id == c.id)
  competitorScores.foldl (fun acc s =>
    if cls.section_ids.contains s.section_id then
      { total := acc.total + (match s.points with | some p => p | none => 0),
        sections_done := acc.sections_done + 1,
        dnf_count := acc.dnf_count + (if s.is_dnf then 1 else 0),
        last_scored_at := if s.created_at > acc.last_scored_at then s.created_at
                          else acc.last_scored_at }
    else acc)
    { total := 0, sections_done := 0, dnf_count := 0, last_scored_at := 0 }

/-- One element of the `getLeaderboard` output (`class_totals` is the
per-class map, keyed by class id). -/
structure LeaderboardEntry where
  id : Nat
  number : Nat
  name : String
  classes : List String
  class_totals : List (String × ClassTotals)
deriving Repr, DecidableEq

/-- `getLeaderboard` from `db.js`. -/
def getLeaderboard (db : Db) : List LeaderboardEntry :=
  db.competitors.map (fun c =>
    { id := c.id, number := c.number, name := c.name, classes := c.classes,
      class_totals := (db.classes.filter (fun cls => c.classes.contains cls.id)).map
        (fun cls => (cls.id, classTotalsFor db c cls)) })

/-- The `entry.class_totals?.[cls.id]` lookup of the clients. -/
def lookupCT (e : LeaderboardEntry) (clsId : String) : Option ClassTotals :=
  (e.class_totals.find? (fun p => p.1 == clsId)).map (fun p => p.2)

/-- `a.class_totals?.[clsId]?.total ?? 0`. -/
def keyTotal (clsId : String) (e : LeaderboardEntry) : Int :=
  match lookupCT e clsId with
  | some ct => ct.total
  | none => 0

/-- `a.class_totals?.[clsId]?.last_scored_at || ''` (empty string is `0`). -/
def keyTime (clsId : String) (e : LeaderboardEntry) : Nat :=
  match lookupCT e clsId with
  | some ct => ct.last_scored_at
  | none => 0

/-- The `(total, lastScoredAt)` key both renderers compare when
assigning ranks. -/
def rankKey (clsId : String) (e : LeaderboardEntry) : Int × Nat :=
  (keyTotal clsId e, keyTime clsId e)

/-- The `sortFn` comparator of the final-scores page
(`getRankedByClass`): totals first, then timestamps, but the timestamp
tie-break only fires when both timestamps are truthy (nonempty). -/
def cmpFinal (clsId : String) (a b : LeaderboardEntry) : Int :=
  let aT := keyTotal clsId a
  let bT := keyTotal clsId b
  if aT != bT then aT - bT
  else
    let aTime := keyTime clsId a
    let bTime := keyTime clsId b
    if aTime != 0 && bTime != 0 && aTime != bTime then
      (if aTime < bTime then -1 else 1)
    else 0

/-- The `sortFn` comparator of the CSV export (`buildClassTable`):
totals first, then timestamps, with no truthiness guard. -/
def cmpCsv (clsId : String) (a b : LeaderboardEntry) : Int :=
  let aT := keyTotal clsId a
  let bT := keyTotal clsId b
  if aT != bT then aT - bT
  else
    let aTime := keyTime clsId a
    let bTime := keyTime clsId b
    if aTime != bTime then (if aTime < bTime then -1 else 1)
    else 0

/-- Insert into a sorted list, keeping the new element before the first
element it compares `le` to.  Together with `jsSort` this is a stable
sorting routine. -/
def jsInsert (le : α → α → Bool) (a : α) : List α → List α
  | [] => [a]
  | b :: l => if le a b then a :: b :: l else b :: jsInsert le a l

/-- Model of `Array.prototype.sort(cmp)`: a stable sort by the
comparator (ECMAScript prescribes exactly this for consistent
comparators), realised as insertion sort with `le a b := cmp a b ≤ 0`. -/
def jsSort (le : α → α → Bool) : List α → List α
  | [] => []
  | a :: l => jsInsert le a (jsSort le l)

/-- The rank-assignment loop shared by both renderers, past the first
element: `idx` is the 0-based position of `prev`, `currentRank` its rank;
an entry whose `(total, lastScoredAt)` key differs from its predecessor's
gets `index + 1`, otherwise it inherits `currentRank`. -/
def rankGo (clsId : String) (idx : Nat) (prev : LeaderboardEntry) (currentRank : Nat) :
    List LeaderboardEntry → List (LeaderboardEntry × Nat)
  | [] => []
  | e :: rest =>
    let r := if rankKey clsId e = rankKey clsId prev then currentRank else idx + 1
    (e, r) :: rankGo clsId (idx + 1) e r rest

/-- The `completedRiders.map((entry, index) => ...)` rank assignment of
both renderers (`currentRank` starts at 1). -/
def assignRanks (clsId : String) : List LeaderboardEntry → List (LeaderboardEntry × Nat)
  | [] => []
  | e :: rest => (e, 1) :: rankGo clsId 1 e 1 rest

/-- `ct && ct.sections_done >= maxSections`: the completion test of both
renderers. -/
def isCompleteFor (clsId : String) (maxSections : Nat) (e : LeaderboardEntry) : Bool :=
  match lookupCT e clsId with
  | some ct => maxSections ≤ ct.sections_done
  | none => false

/-- Output row of `getRankedByClass` (final-scores page): the entry plus
`rank` and `completed`. -/
structure Ranked where
  entry : LeaderboardEntry
  rank : Nat
  completed : Bool
deriving Repr, DecidableEq

/-- `getRankedByClass` of the final-scores page: filter the class's
riders, partition by completion, sort each partition with `cmpFinal`,
rank the completed partition, and append the incomplete partition with
rank 0. -/
def getRankedByClass (cls : ClassConfig) (leaderboard : List LeaderboardEntry) :
    List Ranked :=
  let filtered := leaderboard.filter (fun c => c.classes.contains cls.id)
  let maxSections := cls.section_ids.length * cls.laps
  let completedRiders := filtered.filter (isCompleteFor cls.id maxSections)
  let incompleteRiders := filtered.filter (fun c => !(isCompleteFor cls.id maxSections c))
  let le := fun a b => decide (cmpFinal cls.id a b ≤ 0)
  let sortedCompleted := jsSort le completedRiders
  let sortedIncomplete := jsSort le incompleteRiders
  (assignRanks cls.id sortedCompleted).map (fun p => { entry := p.1, rank := p.2, completed := true })
    ++ sortedIncomplete.map (fun e => { entry := e, rank := 0, completed := false })

/-- Output row of the CSV export's ranking (`buildClassTable`):
`rank = none` models the `'-'` sentinel of incomplete riders. -/
structure CsvRanked where
  entry : LeaderboardEntry
  rank : Option Nat
deriving Repr, DecidableEq

/-- The ranking part of `buildClassTable` in the CSV export route: same
shape as `getRankedByClass` but `maxSections` counts the class's
sections that exist in `settings.sections`, the comparator is `cmpCsv`,
and incomplete riders get the `'-'` sentinel. -/
def buildClassRanked (allSections : List Section) (cls : ClassConfig)
    (leaderboard : List LeaderboardEntry) : List CsvRanked :=
  let riders := leaderboard.filter (fun c => c.classes.contains cls.id)
  let classSections := allSections.filter (fun s => cls.section_ids.contains s.id)
  let maxSections := classSections.length * cls.laps
  let completed := riders.filter (isCompleteFor cls.id maxSections)
  let incomplete := riders.filter (fun c => !(isCompleteFor cls.id maxSections c))
  let le := fun a b => decide (cmpCsv cls.id a b ≤ 0)
  let sortedCompleted := jsSort le completed
  let sortedIncomplete := jsSort le incomplete
  (assignRanks cls.id sortedCompleted).map (fun p => { entry := p.1, rank := some p.2 })
    ++ sortedIncomplete.map (fun e => { entry := e, rank := none })

/-- The `S1L1 ... SnL1, S1L2, ...` cell grid both the CSV export and the
final-scores table iterate: laps outermost, the class's sections (as
filtered from the settings) innermost. -/
def gridCells (allSections : List Section) (cls : ClassConfig) : List (Nat × Nat) :=
  (List.range' 1 cls.laps).flatMap (fun lap =>
    (allSections.filter (fun s => cls.section_ids.contains s.id)).map (fun sec => (sec.id, lap)))

/-- Cell value in the CSV export: `scores.find(...)`, with 20 substituted
for a missing attempt or `null` points. -/
def csvCell (scores : List Score) (riderId secId lap : Nat) : Int :=
  match scores.find? (fun s =>
      s.competitor_id == riderId && s.section_id == secId && s.lap == lap) with
  | none => 20
  | some sc =>
    match sc.points with
    | none => 20
    | some p => p

/-- The per-rider `Total` column of the CSV export (`buildClassTable`):
sum of the grid cells with the 20-point substitution. -/
def csvRiderTotal (allSections : List Section) (cls : ClassConfig)
    (scores : List Score) (riderId : Nat) : Int :=
  (gridCells allSections cls).foldl
    (fun t cell => t + csvCell scores riderId cell.1 cell.2) 0

/-- `getScore` of the final-scores page's `StandingsTable`: the looked-up
points, or 20 when the attempt is missing or its points are `null`. -/
def finalGetScore (scores : List Score) (riderId sectionId lap : Nat) : Int :=
  match scores.find? (fun s =>
      s.competitor_id == riderId && s.section_id == sectionId && s.lap == lap) with
  | none => 20
  | some score =>
    match score.points with
    | none => 20
    | some p => p

/-- The `Total` column of the final-scores page: the page walks the same
lap-major grid of class sections and accumulates `getScore` values. -/
def finalRowTotal (allSections : List Section) (cls : ClassConfig)
    (scores : List Score) (riderId : Nat) : Int :=
  (gridCells allSections cls).foldl
    (fun t cell => t + finalGetScore scores riderId cell.1 cell.2) 0

/-- One call of the scoring API as exercised by the judges: a
`POST /api/scores` body. -/
structure PostReq where
  competitor_id : Nat
  section_id : Nat
  points : Option Int
  is_dnf : Bool
deriving Repr, DecidableEq

/-- Apply a sequence of submissions through the `POST` route; refused
submissions leave the ledger as the route left it. -/
def applyPosts (db : Db) : List PostReq → Db
  | [] => db
  | r :: rest => applyPosts (postScore db r.competitor_id r.section_id r.points r.is_dnf).1 rest

/-- One ledger operation of the attempt store: `record` (a direct
`createScore`), `correct` (`updateScore`) or `remove` (`deleteScore`). -/
inductive LedgerOp where
  | record (competitor_id section_id lap : Nat) (points : Option Int) (is_dnf : Bool)
  | correct (id : Nat) (points : Option Int) (is_dnf : Bool)
  | remove (id : Nat)
deriving Repr, DecidableEq

/-- Apply a sequence of ledger operations; failed operations leave the
ledger as the store left it. -/
def applyOps (db : Db) : List LedgerOp → Db
  | [] => db
  | .record c s l p d :: rest => applyOps (createScore db c s l p d).1 rest
  | .correct i p d :: rest => applyOps (updateScore db i p d).1 rest
  | .remove i :: rest => applyOps (deleteScore db i) rest

/-- The `(competitor_id, section_id, lap)` key whose uniqueness the
ledger must maintain. -/
def tripleKey (s : Score) : Nat × Nat × Nat :=
  (s.competitor_id, s.section_id, s.lap)

/-- The ledger invariant: no two rows share a triple key. -/
def UniqueTriples (scores : List Score) : Prop :=
  (scores.map tripleKey).Nodup

/-- Id freshness: every stored row's id is below the id counter. -/
def IdsFresh (db : Db) : Prop :=
  ∀ s ∈ db.scores, s.id < db.nextScoreId

instance : DecidablePred UniqueTriples := fun scores =>
  inferInstanceAs (Decidable (scores.map tripleKey).Nodup)

instance (db : Db) : Decidable (IdsFresh db) :=
  inferInstanceAs (Decidable (∀ s ∈ db.scores, s.id < db.nextScoreId))

/-- The laps recorded for a competitor at a section, in ledger order. -/
def lapsAt (db : Db) (competitorId sectionId : Nat) : List Nat :=
  (db.scores.filter (fun s =>
    s.competitor_id == competitorId && s.section_id == sectionId)).map (fun s => s.lap)

/-! ### Concrete fixtures used by witnesses and counterexamples -/

/-- Class A of the fixtures: three laps over sections 1 and 2. -/
def clsA : ClassConfig :=
  { id := "A", name := "ClassA", laps := 3, section_ids := [1, 2] }

/-- Class B of the fixtures: three laps over sections 1 and 3 (section 1
is shared with class A). -/
def clsB : ClassConfig :=
  { id := "B", name := "ClassB", laps := 3, section_ids := [1, 3] }

/-- Fixture rider 7, entered in classes A and B. -/
def rider7 : Competitor :=
  { id := 1, number := 7, name := "Rider", classes := ["A", "B"] }

/-- Fixture state: rider 7 has scored section 1 (shared) and section 3
(class B) on lap 1, so class B's lap 1 is complete while class A still
misses section 2. -/
def exDbC1 : Db :=
  { competitors := [rider7],
    scores :=
      [ { id := 1, competitor_id := 1, section_id := 1, lap := 1, points := some 0,
          is_dnf := false, created_at := 1, updated_at := none },
        { id := 2, competitor_id := 1, section_id := 3, lap := 1, points := some 0,
          is_dnf := false, created_at := 2, updated_at := none } ],
    sections := [{ id := 1, name := "S1" }, { id := 2, name := "S2" }, { id := 3, name := "S3" }],
    classes := [clsA, clsB],
    nextScoreId := 3,
    now := 3 }

/-- A class with a two-lap course over the single (shared) section 1. -/
def clsA2 : ClassConfig :=
  { id := "A", name := "ShortClass", laps := 2, section_ids := [1] }

/-- A class with a three-lap course over the same section 1. -/
def clsB2 : ClassConfig :=
  { id := "B", name := "LongClass", laps := 3, section_ids := [1] }

/-- Fixture state for the lap-cap scenario: rider 7 is in both classes
(laps 2 and 3) and has already ridden section 1 on laps 1 and 2, so the
short class's course is complete while the long class's is not. -/
def exDbC2 : Db :=
  { competitors := [rider7],
    scores :=
      [ { id := 1, competitor_id := 1, section_id := 1, lap := 1, points := some 0,
          is_dnf := false, created_at := 1, updated_at := none },
        { id := 2, competitor_id := 1, section_id := 1, lap := 2, points := some 0,
          is_dnf := false, created_at := 2, updated_at := none } ],
    sections := [{ id := 1, name := "S1" }],
    classes := [clsA2, clsB2],
    nextScoreId := 3,
    now := 3 }

/-- A one-section class used by the leaderboard fixtures. -/
def clsC : ClassConfig :=
  { id := "C", name := "Solo", laps := 3, section_ids := [1] }

/-- Fixture rider entered in class C only. -/
def riderC : Competitor :=
  { id := 1, number := 7, name := "Rider", classes := ["C"] }

/-- Fixture state with one competitor in the one-section class C and an
empty ledger. -/
def exDbC4 : Db :=
  { competitors := [riderC],
    scores := [],
    sections := [{ id := 1, name := "S1" }],
    classes := [clsC],
    nextScoreId := 1,
    now := 1 }

/-- A one-lap one-section class for the standings-total fixtures. -/
def clsD : ClassConfig :=
  { id := "D", name := "Mono", laps := 1, section_ids := [1] }

/-- Fixture rider entered in class D only. -/
def riderD : Competitor :=
  { id := 1, number := 7, name := "Rider", classes := ["D"] }

/-- Fixture state: rider D has one "did not start" attempt (null points)
at the only section of the one-lap class D. -/
def exDbC9 : Db :=
  { competitors := [riderD],
    scores :=
      [ { id := 1, competitor_id := 1, section_id := 1, lap := 1, points := none,
          is_dnf := true, created_at := 1, updated_at := none } ],
    sections := [{ id := 1, name := "S1" }],
    classes := [clsD],
    nextScoreId := 2,
    now := 2 }

/-- A small leaderboard for the ranking fixtures: riders 1 and 2 are
tied on `(total, lastScoredAt) = (3, 5)`, rider 3 is distinct with
`(7, 6)`, and rider 4 has not completed the course. -/
def lbC6 : List LeaderboardEntry :=
  [ { id := 3, number := 3, name := "c", classes := ["D"],
      class_totals := [("D", { total := 7, sections_done := 1, dnf_count := 0,
                               last_scored_at := 6 })] },
    { id := 1, number := 1, name := "a", classes := ["D"],
      class_totals := [("D", { total := 3, sections_done := 1, dnf_count := 0,
                               last_scored_at := 5 })] },
    { id := 2, number := 2, name := "b", classes := ["D"],
      class_totals := [("D", { total := 3, sections_done := 1, dnf_count := 0,
                               last_scored_at := 5 })] },
    { id := 4, number := 4, name := "d", classes := ["D"],
      class_totals := [("D", { total := 0, sections_done := 0, dnf_count := 0,
                               last_scored_at := 4 })] } ]

/-- Fixture state with an empty ledger (the catalog of `exDbC1`). -/
def exDbEmpty : Db :=
  { competitors := [rider7],
    scores := [],
    sections := [{ id := 1, name := "S1" }, { id := 2, name := "S2" }, { id := 3, name := "S3" }],
    classes := [clsA, clsB],
    nextScoreId := 1,
    now := 1 }

/-! ### Helper lemmas about the running-maximum folds -/

theorem foldl_max_init_le (f : α → Nat) :
    ∀ (l : List α) (a : Nat), a ≤ l.foldl (fun m x => max m (f x)) a := by
  intro l
  induction l with
  | nil => intro a; exact Nat.le_refl a
  | cons b t ih =>
    intro a
    exact Nat.le_trans (Nat.le_max_left a (f b)) (ih (max a (f b)))

theorem foldl_max_le (f : α → Nat) {L : Nat} :
    ∀ (l : List α) (a : Nat), a ≤ L → (∀ x ∈ l, f x ≤ L) →
      l.foldl (fun m x => max m (f x)) a ≤ L := by
  intro l
  induction l with
  | nil => intro a ha _; exact ha
  | cons b t ih =>
    intro a ha hl
    refine ih (max a (f b)) (Nat.max_le.mpr ⟨ha, hl b (List.mem_cons_self b t)⟩) ?_
    intro x hx
    exact hl x (List.mem_cons_of_mem b hx)

theorem le_foldl_max (f : α → Nat) :
    ∀ (l : List α) (a : Nat), ∀ x ∈ l, f x ≤ l.foldl (fun m x => max m (f x)) a := by
  intro l
  induction l with
  | nil => intro a x hx; cases hx
  | cons b t ih =>
    intro a x hx
    rcases List.mem_cons.mp hx with h | h
    · subst h
      exact Nat.le_trans (Nat.le_max_right a (f x)) (foldl_max_init_le f t (max a (f x)))
    · exact ih (max a (f b)) x h

theorem foldl_max_eq_init_or (f : α → Nat) :
    ∀ (l : List α) (a : Nat),
      l.foldl (fun m x => max m (f x)) a = a ∨
      ∃ x ∈ l, l.foldl (fun m x => max m (f x)) a = f x := by
  intro l
  induction l with
  | nil => intro a; exact Or.inl rfl
  | cons b t ih =>
    intro a
    rcases ih (max a (f b)) with h | ⟨x, hx, hfx⟩
    · rcases max_choice a (f b) with hm | hm
      · exact Or.inl (h.trans hm)
      · exact Or.inr ⟨b, List.mem_cons_self b t, h.trans hm⟩
    · exact Or.inr ⟨x, List.mem_cons_of_mem b hx, hfx⟩

/-! ### Lemmas about the gate's building blocks -/

theorem sectionMaxLap_le {scores : List Score} {secId L : Nat}
    (h : ∀ s ∈ scores, s.section_id = secId → s.lap ≤ L) :
    sectionMaxLap scores secId ≤ L := by
  refine foldl_max_le _ _ 0 (Nat.zero_le L) ?_
  intro s hs
  rcases List.mem_filter.mp hs with ⟨hmem, hsec⟩
  exact h s hmem (by simpa using hsec)

theorem le_sectionMaxLap {scores : List Score} {secId : Nat} {s : Score}
    (hs : s ∈ scores) (hsec : s.section_id = secId) :
    s.lap ≤ sectionMaxLap scores secId :=
  le_foldl_max _ _ 0 s (List.mem_filter.mpr ⟨hs, by simpa using hsec⟩)

theorem sectionMaxLap_attained (scores : List Score) (secId : Nat) :
    sectionMaxLap scores secId = 0 ∨
    ∃ s ∈ scores, s.section_id = secId ∧ sectionMaxLap scores secId = s.lap := by
  rcases foldl_max_eq_init_or (fun s : Score => s.lap)
      (scores.filter (fun s => s.section_id == secId)) 0 with h | ⟨s, hs, hfs⟩
  · exact Or.inl h
  · rcases List.mem_filter.mp hs with ⟨hmem, hsec⟩
    exact Or.inr ⟨s, hmem, by simpa using hsec, hfs⟩

theorem classMaxLapOf_le {cs : List Score} {ids : List Nat} {L : Nat}
    (h : ∀ s ∈ cs, s.lap ≤ L) : classMaxLapOf cs ids ≤ L := by
  refine foldl_max_le _ _ 0 (Nat.zero_le L) ?_
  intro i _
  exact sectionMaxLap_le (fun s hs _ => h s hs)

theorem le_classMaxLapOf {cs : List Score} {ids : List Nat} {secId : Nat} {s : Score}
    (hid : secId ∈ ids) (hs : s ∈ cs) (hsec : s.section_id = secId) :
    s.lap ≤ classMaxLapOf cs ids :=
  Nat.le_trans (le_sectionMaxLap hs hsec) (le_foldl_max _ _ 0 secId hid)

theorem classMaxLapOf_attained (cs : List Score) (ids : List Nat) :
    classMaxLapOf cs ids = 0 ∨
    ∃ s ∈ cs, classMaxLapOf cs ids = s.lap := by
  rcases foldl_max_eq_init_or (fun i => sectionMaxLap cs i) ids 0 with h | ⟨i, _, hfi⟩
  · exact Or.inl h
  · rcases sectionMaxLap_attained cs i with h0 | ⟨s, hs, _, hlap⟩
    · exact Or.inl (hfi.trans h0)
    · exact Or.inr ⟨s, hs, hfi.trans hlap⟩

theorem any_triple_eq_true_iff (cs : List Score) (secId L : Nat) :
    (cs.any (fun s => s.section_id == secId && s.lap == L) = true) ↔
      ∃ s ∈ cs, s.section_id = secId ∧ s.lap = L := by
  simp [List.any_eq_true]

theorem mem_pushMissing (db : Db) (cs : List Score) (L : Nat) :
    ∀ (ids : List Nat) (worst : List String) (name : String),
      name ∈ pushMissing db cs L worst ids ↔
        name ∈ worst ∨ ∃ secId ∈ ids,
          (¬ ∃ s ∈ cs, s.section_id = secId ∧ s.lap = L) ∧
          ∃ sec, getSection db secId = some sec ∧ sec.name = name := by
  intro ids
  induction ids with
  | nil =>
    intro worst name
    simp [pushMissing]
  | cons i t ih =>
    intro worst name
    have hstep : pushMissing db cs L worst (i :: t) =
        pushMissing db cs L
          (if cs.any (fun s => s.section_id == i && s.lap == L) then worst
           else
             match getSection db i with
             | some sec => if worst.contains sec.name then worst else worst ++ [sec.name]
             | none => worst) t := rfl
    rw [hstep, ih]
    by_cases hany : cs.any (fun s => s.section_id == i && s.lap == L) = true
    · have hex : ∃ s ∈ cs, s.section_id = i ∧ s.lap = L :=
        (any_triple_eq_true_iff cs i L).mp hany
      simp only [hany, if_true]
      constructor
      · rintro (h | ⟨secId, hsec, hmiss, hrest⟩)
        · exact Or.inl h
        · exact Or.inr ⟨secId, List.mem_cons_of_mem i hsec, hmiss, hrest⟩
      · rintro (h | ⟨secId, hsec, hmiss, hrest⟩)
        · exact Or.inl h
        · rcases List.mem_cons.mp hsec with rfl | hsec
          · exact absurd hex hmiss
          · exact Or.inr ⟨secId, hsec, hmiss, hrest⟩
    · have hnoex : ¬ ∃ s ∈ cs, s.section_id = i ∧ s.lap = L := by
        intro hex
        exact hany ((any_triple_eq_true_iff cs i L).mpr hex)
      simp only [Bool.not_eq_true] at hany
      simp only [hany, Bool.false_eq_true, if_false]
      cases hsec : getSection db i with
      | none =>
        constructor
        · rintro (h | ⟨secId, hsect, hmiss, hrest⟩)
          · exact Or.inl h
          · exact Or.inr ⟨secId, List.mem_cons_of_mem i hsect, hmiss, hrest⟩
        · rintro (h | ⟨secId, hsect, hmiss, sec, hget, hname⟩)
          · exact Or.inl h
          · rcases List.mem_cons.mp hsect with rfl | hsect
            · rw [hsec] at hget; cases hget
            · exact Or.inr ⟨secId, hsect, hmiss, sec, hget, hname⟩
      | some sec =>
        by_cases hcont : worst.contains sec.name = true
        · have hmemw : sec.name ∈ worst := List.elem_iff.mp hcont
          simp only [hcont, if_true]
          constructor
          · rintro (h | ⟨secId, hsect, hmiss, hrest⟩)
            · exact Or.inl h
            · exact Or.inr ⟨secId, List.mem_cons_of_mem i hsect, hmiss, hrest⟩
          · rintro (h | ⟨secId, hsect, hmiss, sec2, hget, hname⟩)
            · exact Or.inl h
            · rcases List.mem_cons.mp hsect with rfl | hsect
              · rw [hsec] at hget
                cases hget
                exact Or.inl (hname ▸ hmemw)
              · exact Or.inr ⟨secId, hsect, hmiss, sec2, hget, hname⟩
        · simp only [hcont, if_false]
          constructor
          · rintro (h | ⟨secId, hsect, hmiss, hrest⟩)
            · rcases List.mem_append.mp h with h | h
              · exact Or.inl h
              · rcases List.mem_singleton.mp h with rfl
                exact Or.inr ⟨i, List.mem_cons_self i t, hnoex, sec, hsec, rfl⟩
            · exact Or.inr ⟨secId, List.mem_cons_of_mem i hsect, hmiss, hrest⟩
          · rintro (h | ⟨secId, hsect, hmiss, sec2, hget, hname⟩)
            · exact Or.inl (List.mem_append.mpr (Or.inl h))
            · rcases List.mem_cons.mp hsect with rfl | hsect
              · rw [hsec] at hget
                cases hget
                exact Or.inl (List.mem_append.mpr (Or.inr (by simp [hname])))
              · exact Or.inr ⟨secId, hsect, hmiss, sec2, hget, hname⟩

theorem pushMissing_complete (db : Db) (cs : List Score) (L : Nat) :
    ∀ (ids : List Nat) (worst : List String),
      (∀ i ∈ ids, ∃ s ∈ cs, s.section_id = i ∧ s.lap = L) →
      pushMissing db cs L worst ids = worst := by
  intro ids
  induction ids with
  | nil => intro worst _; rfl
  | cons i t ih =>
    intro worst h
    have hany : cs.any (fun s => s.section_id == i && s.lap == L) = true :=
      (any_triple_eq_true_iff cs i L).mpr (h i (List.mem_cons_self i t))
    have hstep : pushMissing db cs L worst (i :: t) =
        pushMissing db cs L
          (if cs.any (fun s => s.section_id == i && s.lap == L) then worst
           else
             match getSection db i with
             | some sec => if worst.contains sec.name then worst else worst ++ [sec.name]
             | none => worst) t := rfl
    rw [hstep]
    simp only [hany, if_true]
    exact ih worst (fun j hj => h j (List.mem_cons_of_mem i hj))

/-! ### Lemmas about lap derivation and score creation -/

theorem getNextLap_def (db : Db) (c s : Nat) :
    getNextLap db c s =
      (db.scores.filter (fun x =>
        x.competitor_id == c && x.section_id == s)).foldl (fun mx x => max mx x.lap) 0 + 1 :=
  rfl

theorem lap_lt_getNextLap {db : Db} {c s : Nat} {sc : Score} (hm : sc ∈ db.scores)
    (hc : sc.competitor_id = c) (hs : sc.section_id = s) : sc.lap < getNextLap db c s := by
  have hmem : sc ∈ db.scores.filter (fun x =>
      x.competitor_id == c && x.section_id == s) :=
    List.mem_filter.mpr ⟨hm, by simp [hc, hs]⟩
  have hle : sc.lap ≤ (db.scores.filter (fun x =>
      x.competitor_id == c && x.section_id == s)).foldl (fun mx x => max mx x.lap) 0 :=
    le_foldl_max (fun x : Score => x.lap)
      (db.scores.filter (fun x => x.competitor_id == c && x.section_id == s)) 0 sc hmem
  rw [getNextLap_def]
  omega

theorem getNextLap_le {db : Db} {c s L : Nat}
    (h : ∀ sc ∈ db.scores, sc.competitor_id = c → sc.section_id = s → sc.lap ≤ L) :
    getNextLap db c s ≤ L + 1 := by
  rw [getNextLap_def]
  have hle : (db.scores.filter (fun x =>
      x.competitor_id == c && x.section_id == s)).foldl (fun mx x => max mx x.lap) 0 ≤ L := by
    refine foldl_max_le _ _ 0 (Nat.zero_le L) ?_
    intro x hx
    rcases List.mem_filter.mp hx with ⟨hmem, hcond⟩
    simp only [Bool.and_eq_true, beq_iff_eq] at hcond
    exact h x hmem hcond.1 hcond.2
  omega

theorem le_getNextLap {db : Db} {c s : Nat} {sc : Score} (hm : sc ∈ db.scores)
    (hc : sc.competitor_id = c) (hs : sc.section_id = s) :
    sc.lap + 1 ≤ getNextLap db c s :=
  lap_lt_getNextLap hm hc hs

/-- Creating a score at the freshly derived lap never hits the duplicate
check: the ledger is extended by exactly the new row. -/
theorem createScore_at_getNextLap (db : Db) (c s : Nat) (p : Option Int) (d : Bool) :
    createScore db c s (getNextLap db c s) p d =
      ({ db with nextScoreId := db.nextScoreId + 1,
                 scores := db.scores ++
                   [{ id := db.nextScoreId, competitor_id := c, section_id := s,
                      lap := getNextLap db c s, points := p, is_dnf := d,
                      created_at := db.now, updated_at := none }],
                 now := db.now + 1 },
       .ok { id := db.nextScoreId, competitor_id := c, section_id := s,
             lap := getNextLap db c s, points := p, is_dnf := d,
             created_at := db.now, updated_at := none }) := by
  have hany : db.scores.any (fun sc =>
      sc.competitor_id == c && sc.section_id == s && sc.lap == getNextLap db c s) = false := by
    rw [List.any_eq_false]
    intro sc hsc
    simp only [Bool.and_eq_true, beq_iff_eq]
    rintro ⟨⟨hc, hs⟩, hlap⟩
    exact absurd hlap (Nat.ne_of_lt (lap_lt_getNextLap hsc hc hs))
  simp [createScore, hany]

theorem createScore_of_exists {db : Db} {c s l : Nat} {p : Option Int} {d : Bool}
    (h : ∃ sc ∈ db.scores, tripleKey sc = (c, s, l)) :
    createScore db c s l p d =
      ({ db with nextScoreId := db.nextScoreId + 1 },
       .error ("Score already exists for this lap")) := by
  have hany : db.scores.any (fun sc =>
      sc.competitor_id == c && sc.section_id == s && sc.lap == l) = true := by
    rw [List.any_eq_true]
    rcases h with ⟨sc, hm, hk⟩
    refine ⟨sc, hm, ?_⟩
    simp only [tripleKey, Prod.mk.injEq] at hk
    simp [hk.1, hk.2.1, hk.2.2]
  simp [createScore, hany]

theorem createScore_of_not_exists {db : Db} {c s l : Nat} {p : Option Int} {d : Bool}
    (h : ∀ sc ∈ db.scores, tripleKey sc ≠ (c, s, l)) :
    createScore db c s l p d =
      ({ db with nextScoreId := db.nextScoreId + 1,
                 scores := db.scores ++
                   [{ id := db.nextScoreId, competitor_id := c, section_id := s,
                      lap := l, points := p, is_dnf := d,
                      created_at := db.now, updated_at := none }],
                 now := db.now + 1 },
       .ok { id := db.nextScoreId, competitor_id := c, section_id := s,
             lap := l, points := p, is_dnf := d,
             created_at := db.now, updated_at := none }) := by
  have hany : db.scores.any (fun sc =>
      sc.competitor_id == c && sc.section_id == s && sc.lap == l) = false := by
    rw [List.any_eq_false]
    intro sc hsc
    simp only [Bool.and_eq_true, beq_iff_eq]
    rintro ⟨⟨hc, hs⟩, hlap⟩
    exact h sc hsc (by simp [tripleKey, hc, hs, hlap])
  simp [createScore, hany]

theorem uniqueTriples_createScore {db : Db} {c s l : Nat} {p : Option Int} {d : Bool}
    (hU : UniqueTriples db.scores) :
    UniqueTriples (createScore db c s l p d).1.scores := by
  by_cases hex : ∃ sc ∈ db.scores, tripleKey sc = (c, s, l)
  · rw [createScore_of_exists hex]
    exact hU
  · push_neg at hex
    rw [createScore_of_not_exists hex]
    unfold UniqueTriples at hU ⊢
    rw [List.map_append, List.nodup_append]
    refine ⟨hU, List.nodup_singleton _, ?_⟩
    intro k hk hk2
    simp only [List.map_cons, List.map_nil, List.mem_singleton] at hk2
    rcases List.mem_map.mp hk with ⟨sc, hsc, hkey⟩
    exact hex sc hsc (by rw [hkey, hk2]; rfl)

theorem idsFresh_createScore {db : Db} {c s l : Nat} {p : Option Int} {d : Bool}
    (hF : IdsFresh db) : IdsFresh (createScore db c s l p d).1 := by
  by_cases hex : ∃ sc ∈ db.scores, tripleKey sc = (c, s, l)
  · rw [createScore_of_exists hex]
    intro sc hsc
    exact Nat.lt_succ_of_lt (hF sc hsc)
  · push_neg at hex
    rw [createScore_of_not_exists hex]
    intro sc hsc
    rcases List.mem_append.mp hsc with hm | hm
    · exact Nat.lt_succ_of_lt (hF sc hm)
    · rcases List.mem_singleton.mp hm with rfl
      exact Nat.lt_succ_self _

theorem updateScoreList_map_tripleKey (now id : Nat) (p : Option Int) (d : Bool) :
    ∀ (l l2 : List Score) (u : Score), updateScoreList now id p d l = some (l2, u) →
      l2.map tripleKey = l.map tripleKey := by
  intro l
  induction l with
  | nil => intro l2 u h; cases h
  | cons s t ih =>
    intro l2 u h
    by_cases hid : (s.id == id) = true
    · simp only [updateScoreList, hid, if_true, Option.some.injEq, Prod.mk.injEq] at h
      rcases h with ⟨hl, _⟩
      subst hl
      rfl
    · simp only [updateScoreList, hid, Bool.false_eq_true, if_false] at h
      cases hrec : updateScoreList now id p d t with
      | none => rw [hrec] at h; cases h
      | some pr =>
        rw [hrec] at h
        cases pr with
        | mk l3 u3 =>
          simp only [Option.some.injEq, Prod.mk.injEq] at h
          rcases h with ⟨hl, _⟩
          subst hl
          simp [ih l3 u3 hrec]

theorem updateScoreList_map_id (now id : Nat) (p : Option Int) (d : Bool) :
    ∀ (l l2 : List Score) (u : Score), updateScoreList now id p d l = some (l2, u) →
      l2.map Score.id = l.map Score.id := by
  intro l
  induction l with
  | nil => intro l2 u h; cases h
  | cons s t ih =>
    intro l2 u h
    by_cases hid : (s.id == id) = true
    · simp only [updateScoreList, hid, if_true, Option.some.injEq, Prod.mk.injEq] at h
      rcases h with ⟨hl, _⟩
      subst hl
      rfl
    · simp only [updateScoreList, hid, Bool.false_eq_true, if_false] at h
      cases hrec : updateScoreList now id p d t with
      | none => rw [hrec] at h; cases h
      | some pr =>
        rw [hrec] at h
        cases pr with
        | mk l3 u3 =>
          simp only [Option.some.injEq, Prod.mk.injEq] at h
          rcases h with ⟨hl, _⟩
          subst hl
          simp [ih l3 u3 hrec]

theorem uniqueTriples_updateScore {db : Db} {id : Nat} {p : Option Int} {d : Bool}
    (hU : UniqueTriples db.scores) :
    UniqueTriples (updateScore db id p d).1.scores := by
  unfold updateScore
  cases hrec : updateScoreList db.now id p d db.scores with
  | none => exact hU
  | some pr =>
    cases pr with
    | mk l2 u =>
      unfold UniqueTriples at hU ⊢
      simpa [updateScoreList_map_tripleKey db.now id p d db.scores l2 u hrec] using hU

theorem idsFresh_updateScore {db : Db} {id : Nat} {p : Option Int} {d : Bool}
    (hF : IdsFresh db) : IdsFresh (updateScore db id p d).1 := by
  unfold updateScore
  cases hrec : updateScoreList db.now id p d db.scores with
  | none => exact hF
  | some pr =>
    cases pr with
    | mk l2 u =>
      intro sc hsc
      have hmapid : l2.map Score.id = db.scores.map Score.id :=
        updateScoreList_map_id db.now id p d db.scores l2 u hrec
      have hid : sc.id ∈ db.scores.map Score.id := by
        rw [← hmapid]
        exact List.mem_map.mpr ⟨sc, hsc, rfl⟩
      rcases List.mem_map.mp hid with ⟨x, hx, hxid⟩
      simpa [← hxid] using hF x hx

theorem uniqueTriples_deleteScore {db : Db} {id : Nat}
    (hU : UniqueTriples db.scores) : UniqueTriples (deleteScore db id).scores := by
  unfold UniqueTriples at hU ⊢
  have hsub : (db.scores.filter (fun s => !(s.id == id))).Sublist db.scores :=
    List.filter_sublist db.scores
  exact (hsub.map tripleKey).nodup hU

theorem idsFresh_deleteScore {db : Db} {id : Nat}
    (hF : IdsFresh db) : IdsFresh (deleteScore db id) := by
  intro sc hsc
  exact hF sc (List.mem_of_mem_filter hsc)

theorem applyOps_preserves (ops : List LedgerOp) :
    ∀ db : Db, UniqueTriples db.scores → IdsFresh db →
      UniqueTriples (applyOps db ops).scores ∧ IdsFresh (applyOps db ops) := by
  induction ops with
  | nil => intro db hU hF; exact ⟨hU, hF⟩
  | cons op rest ih =>
    intro db hU hF
    cases op with
    | record c s l p d =>
      exact ih _ (uniqueTriples_createScore hU) (idsFresh_createScore hF)
    | correct i p d =>
      exact ih _ (uniqueTriples_updateScore hU) (idsFresh_updateScore hF)
    | remove i =>
      exact ih _ (uniqueTriples_deleteScore hU) (idsFresh_deleteScore hF)

/-- C3: `createScore` rejects an existing `(competitor, section, lap)`
triple with the duplicate error and leaves the ledger unchanged;
otherwise it appends exactly one row carrying the fresh id counter, the
current clock as `created_at` and `updated_at = none`.  Consequently,
starting from a ledger with unique triples and a fresh id counter, every
sequence of record / correct / delete operations maintains triple
uniqueness (and id freshness). -/
theorem ledger_unique_triples (db : Db) (c s l : Nat) (p : Option Int) (d : Bool)
    (ops : List LedgerOp)
    (hU : UniqueTriples db.scores) (hF : IdsFresh db) :
    ((∃ sc ∈ db.scores, tripleKey sc = (c, s, l)) →
      (createScore db c s l p d).2 = .error ("Score already exists for this lap") ∧
      (createScore db c s l p d).1.scores = db.scores) ∧
    ((∀ sc ∈ db.scores, tripleKey sc ≠ (c, s, l)) →
      (createScore db c s l p d).1.scores = db.scores ++
        [{ id := db.nextScoreId, competitor_id := c, section_id := s, lap := l,
           points := p, is_dnf := d, created_at := db.now, updated_at := none }] ∧
      (createScore db c s l p d).2 =
        .ok { id := db.nextScoreId, competitor_id := c, section_id := s, lap := l,
              points := p, is_dnf := d, created_at := db.now, updated_at := none } ∧
      ∀ sc ∈ db.scores, sc.id ≠ db.nextScoreId) ∧
    (UniqueTriples (applyOps db ops).scores ∧ IdsFresh (applyOps db ops)) := by
  refine ⟨?_, ?_, applyOps_preserves ops db hU hF⟩
  · intro hex
    rw [createScore_of_exists hex]
    exact ⟨rfl, rfl⟩
  · intro hnone
    rw [createScore_of_not_exists hnone]
    refine ⟨rfl, rfl, ?_⟩
    intro sc hsc
    exact Nat.ne_of_lt (hF sc hsc)

/-- Witness for `ledger_unique_triples` on the fixture ledger: the
triple (1,1,1) already exists, so recording it again fails, and a
record / correct / delete sequence keeps triples unique. -/
theorem ledger_unique_triples_witness :
    UniqueTriples exDbC1.scores ∧ IdsFresh exDbC1 ∧
    (∃ sc ∈ exDbC1.scores, tripleKey sc = (1, 1, 1)) ∧
    ((createScore exDbC1 1 1 1 (some 2) false).2 =
        .error ("Score already exists for this lap") ∧
      (createScore exDbC1 1 1 1 (some 2) false).1.scores = exDbC1.scores) ∧
    (UniqueTriples (applyOps exDbC1
        [.record 1 2 1 (some 3) false, .correct 1 (some 5) false, .remove 2]).scores ∧
      IdsFresh (applyOps exDbC1
        [.record 1 2 1 (some 3) false, .correct 1 (some 5) false, .remove 2])) := by
  have h := ledger_unique_triples exDbC1 1 1 1 (some 2) false
    [.record 1 2 1 (some 3) false, .correct 1 (some 5) false, .remove 2]
    (by decide) (by decide)
  exact ⟨by decide, by decide, by decide, h.1 (by decide), h.2.2⟩

theorem updateScoreList_spec_none (now id : Nat) (p : Option Int) (d : Bool) :
    ∀ l : List Score, (∀ s ∈ l, s.id ≠ id) → updateScoreList now id p d l = none := by
  intro l
  induction l with
  | nil => intro _; rfl
  | cons s t ih =>
    intro h
    have hid : (s.id == id) = false := by
      simp [h s (List.mem_cons_self s t)]
    simp only [updateScoreList, hid, Bool.false_eq_true, if_false]
    rw [ih (fun x hx => h x (List.mem_cons_of_mem s hx))]

theorem updateScoreList_spec_found (now id : Nat) (p : Option Int) (d : Bool) :
    ∀ l : List Score, (∃ s ∈ l, s.id = id) →
      ∃ (i : Nat) (hi : i < l.length),
        (l.get ⟨i, hi⟩).id = id ∧
        (∀ j (hj : j < l.length), j < i → (l.get ⟨j, hj⟩).id ≠ id) ∧
        updateScoreList now id p d l =
          some (l.set i { l.get ⟨i, hi⟩ with points := p, is_dnf := d, updated_at := some now },
                { l.get ⟨i, hi⟩ with points := p, is_dnf := d, updated_at := some now }) := by
  intro l
  induction l with
  | nil => rintro ⟨s, hs, _⟩; cases hs
  | cons s t ih =>
    intro hex
    by_cases hid : s.id = id
    · refine ⟨0, Nat.succ_pos _, hid, ?_, ?_⟩
      · intro j hj hj0; cases hj0
      · simp [updateScoreList, hid]
    · have hext : ∃ x ∈ t, x.id = id := by
        rcases hex with ⟨x, hx, hxid⟩
        rcases List.mem_cons.mp hx with rfl | hx
        · exact absurd hxid hid
        · exact ⟨x, hx, hxid⟩
      rcases ih hext with ⟨i, hi, hgi, hfirst, heq⟩
      refine ⟨i + 1, Nat.succ_lt_succ hi, hgi, ?_, ?_⟩
      · intro j hj hji
        cases j with
        | zero => exact hid
        | succ j2 =>
          exact hfirst j2 (Nat.lt_of_succ_lt_succ hj) (Nat.lt_of_succ_lt_succ hji)
      · have hbid : (s.id == id) = false := by simp [hid]
        simp only [updateScoreList, hbid, Bool.false_eq_true, if_false, heq]
        rfl

/-- C8: correcting through the `PUT` route with an unknown id fails with
the not-found error and leaves the database untouched; with a known id
it rewrites exactly the first matching row, replacing only `points`,
`is_dnf` and `updated_at` (so competitor, section, lap, id and
`created_at` are untouched, no lap is re-derived, and the gate plays no
part), and every other row is unchanged. -/
theorem correction_replaces_only_outcome (db : Db) (id : Nat) (p : Option Int) (d : Bool) :
    ((∀ sc ∈ db.scores, sc.id ≠ id) →
      putScore db id p d = (db, .error ("Score not found"))) ∧
    ((∃ sc ∈ db.scores, sc.id = id) →
      ∃ (i : Nat) (hi : i < db.scores.length),
        (db.scores.get ⟨i, hi⟩).id = id ∧
        (∀ j (hj : j < db.scores.length), j < i → (db.scores.get ⟨j, hj⟩).id ≠ id) ∧
        putScore db id p d =
          ({ db with
              scores := db.scores.set i
                { db.scores.get ⟨i, hi⟩ with
                    points := p, is_dnf := d, updated_at := some db.now },
              now := db.now + 1 },
           .ok { db.scores.get ⟨i, hi⟩ with
                    points := p, is_dnf := d, updated_at := some db.now })) := by
  constructor
  · intro h
    unfold putScore updateScore
    rw [updateScoreList_spec_none db.now id p d db.scores h]
  · intro hex
    rcases updateScoreList_spec_found db.now id p d db.scores hex with
      ⟨i, hi, hgi, hfirst, heq⟩
    refine ⟨i, hi, hgi, hfirst, ?_⟩
    unfold putScore updateScore
    rw [heq]

/-- Witness for `correction_replaces_only_outcome`: correcting fixture
row 1 rewrites it in place; correcting the unknown id 9 is rejected with
the ledger unchanged. -/
theorem correction_replaces_only_outcome_witness :
    (∃ sc ∈ exDbC1.scores, sc.id = 1) ∧
    (∀ sc ∈ exDbC1.scores, sc.id ≠ 9) ∧
    putScore exDbC1 9 (some 5) false = (exDbC1, .error ("Score not found")) ∧
    (∃ (i : Nat) (hi : i < exDbC1.scores.length),
      (exDbC1.scores.get ⟨i, hi⟩).id = 1 ∧
      (∀ j (hj : j < exDbC1.scores.length), j < i → (exDbC1.scores.get ⟨j, hj⟩).id ≠ 1) ∧
      putScore exDbC1 1 (some 5) false =
        ({ exDbC1 with
            scores := exDbC1.scores.set i
              { exDbC1.scores.get ⟨i, hi⟩ with
                  points := some 5, is_dnf := false, updated_at := some exDbC1.now },
            now := exDbC1.now + 1 },
         .ok { exDbC1.scores.get ⟨i, hi⟩ with
                  points := some 5, is_dnf := false, updated_at := some exDbC1.now })) :=
  ⟨by decide, by decide,
    (correction_replaces_only_outcome exDbC1 9 (some 5) false).1 (by decide),
    (correction_replaces_only_outcome exDbC1 1 (some 5) false).2 (by decide)⟩

theorem range_one_concat (n : Nat) :
    List.range' 1 (n + 1) = List.range' 1 n ++ [n + 1] := by
  simpa [Nat.add_comm] using @List.range'_concat 1 1 n

theorem foldl_max_range_one (n : Nat) : (List.range' 1 n).foldl max 0 = n := by
  induction n with
  | zero => rfl
  | succ k ih =>
    rw [range_one_concat, List.foldl_append, ih]
    simp [Nat.max_eq_right (Nat.le_succ k)]

theorem getNextLap_of_range {db : Db} {c s n : Nat}
    (h : lapsAt db c s = List.range' 1 n) : getNextLap db c s = n + 1 := by
  rw [getNextLap_def]
  have hfold : (db.scores.filter (fun x =>
      x.competitor_id == c && x.section_id == s)).foldl (fun mx x => max mx x.lap) 0 = n := by
    have hmap := List.foldl_map (fun x : Score => x.lap) (fun m v => max m v)
      (db.scores.filter (fun x => x.competitor_id == c && x.section_id == s)) 0
    unfold lapsAt at h
    rw [h] at hmap
    rw [← hmap]
    exact foldl_max_range_one n
  rw [hfold]

theorem lapsAt_scores_eq {db1 db2 : Db} (h : db1.scores = db2.scores) (c s : Nat) :
    lapsAt db1 c s = lapsAt db2 c s := by
  unfold lapsAt
  rw [h]

theorem lapsAt_append_same (db : Db) (db2 : Db) (row : Score)
    (hsc : db2.scores = db.scores ++ [row]) (c s : Nat)
    (hc : row.competitor_id = c) (hs : row.section_id = s) :
    lapsAt db2 c s = lapsAt db c s ++ [row.lap] := by
  unfold lapsAt
  rw [hsc, List.filter_append]
  have hpred : (row.competitor_id == c && row.section_id == s) = true := by
    simp [hc, hs]
  have : List.filter (fun x => x.competitor_id == c && x.section_id == s) [row] = [row] := by
    simp [List.filter_cons, hpred]
  rw [this, List.map_append]
  rfl

theorem lapsAt_append_other (db : Db) (db2 : Db) (row : Score)
    (hsc : db2.scores = db.scores ++ [row]) (c s : Nat)
    (hne : ¬ (row.competitor_id = c ∧ row.section_id = s)) :
    lapsAt db2 c s = lapsAt db c s := by
  unfold lapsAt
  rw [hsc, List.filter_append]
  have hpred : (row.competitor_id == c && row.section_id == s) = false := by
    rcases Decidable.not_and_iff_or_not.mp hne with h | h <;> simp [h]
  have : List.filter (fun x => x.competitor_id == c && x.section_id == s) [row] = [] := by
    simp [List.filter_cons, hpred]
  rw [this, List.append_nil]

/-- The route handler with its `let` bindings substituted, for case
analysis in proofs. -/
theorem postScore_def (db : Db) (cid sid : Nat) (p : Option Int) (d : Bool) :
    postScore db cid sid p d =
      if getNextLap db cid sid >
          (if (canStartNewLap db cid sid).maxLap == 0 then 3
           else (canStartNewLap db cid sid).maxLap) then
        (db, .error (courseCompleteMsg
          (if (canStartNewLap db cid sid).maxLap == 0 then 3
           else (canStartNewLap db cid sid).maxLap)))
      else if getNextLap db cid sid > (canStartNewLap db cid sid).currentLap
          && !(canStartNewLap db cid sid).canScore then
        (db, .error (blockedMsg (canStartNewLap db cid sid).currentLap
          (canStartNewLap db cid sid).incompleteSections))
      else createScore db cid sid (getNextLap db cid sid) p d := rfl

/-- One `POST` submission keeps every per-competitor per-section lap list
a gapless `1, 2, ...` run: refusals do not touch the ledger, and an
accepted attempt is recorded at `getNextLap`, extending its own run by
one. -/
theorem lapsAt_createScore_self (db : Db) (cid sid : Nat) (p : Option Int) (d : Bool) :
    lapsAt (createScore db cid sid (getNextLap db cid sid) p d).1 cid sid =
      lapsAt db cid sid ++ [getNextLap db cid sid] := by
  refine lapsAt_append_same db _
    { id := db.nextScoreId, competitor_id := cid, section_id := sid,
      lap := getNextLap db cid sid, points := p, is_dnf := d,
      created_at := db.now, updated_at := none } ?_ cid sid rfl rfl
  rw [createScore_at_getNextLap]

theorem lapsAt_createScore_other (db : Db) (cid sid : Nat) (p : Option Int) (d : Bool)
    (c s : Nat) (hne : ¬ (cid = c ∧ sid = s)) :
    lapsAt (createScore db cid sid (getNextLap db cid sid) p d).1 c s =
      lapsAt db c s := by
  refine lapsAt_append_other db _
    { id := db.nextScoreId, competitor_id := cid, section_id := sid,
      lap := getNextLap db cid sid, points := p, is_dnf := d,
      created_at := db.now, updated_at := none } ?_ c s hne
  rw [createScore_at_getNextLap]

theorem postScore_preserves_runs (db : Db) (cid sid : Nat) (p : Option Int) (d : Bool)
    (hInv : ∀ c s, lapsAt db c s = List.range' 1 (lapsAt db c s).length) :
    ∀ c s, lapsAt (postScore db cid sid p d).1 c s =
      List.range' 1 (lapsAt (postScore db cid sid p d).1 c s).length := by
  intro c s
  rw [postScore_def]
  by_cases h1 : getNextLap db cid sid >
      (if (canStartNewLap db cid sid).maxLap == 0 then 3
       else (canStartNewLap db cid sid).maxLap)
  · rw [if_pos h1]
    exact hInv c s
  · rw [if_neg h1]
    by_cases h2 : (getNextLap db cid sid > (canStartNewLap db cid sid).currentLap
        && !(canStartNewLap db cid sid).canScore) = true
    · rw [if_pos h2]
      exact hInv c s
    · rw [if_neg h2]
      by_cases hcs : cid = c ∧ sid = s
      · rcases hcs with ⟨rfl, rfl⟩
        rw [lapsAt_createScore_self]
        have hrun := hInv cid sid
        have hnext : getNextLap db cid sid = (lapsAt db cid sid).length + 1 :=
          getNextLap_of_range hrun
        rw [hnext, hrun]
        rw [List.length_append, List.length_range']
        simp only [List.length_singleton]
        rw [range_one_concat]
      · rw [lapsAt_createScore_other db cid sid p d c s hcs]
        exact hInv c s

theorem applyPosts_preserves_runs (posts : List PostReq) :
    ∀ db : Db, (∀ c s, lapsAt db c s = List.range' 1 (lapsAt db c s).length) →
      ∀ c s, lapsAt (applyPosts db posts) c s =
        List.range' 1 (lapsAt (applyPosts db posts) c s).length := by
  induction posts with
  | nil => intro db hInv; exact hInv
  | cons r rest ih =>
    intro db hInv
    exact ih _ (postScore_preserves_runs db r.competitor_id r.section_id r.points r.is_dnf hInv)

/-- C7: starting from an empty ledger, under any sequence of submissions
through the scoring route the laps recorded for any competitor at any
one section are exactly `1, 2, 3, ...` in submission order — no gaps and
no repeats. -/
theorem laps_assigned_consecutively (db0 : Db) (posts : List PostReq) (c s : Nat)
    (h0 : db0.scores = []) :
    lapsAt (applyPosts db0 posts) c s =
      List.range' 1 (lapsAt (applyPosts db0 posts) c s).length := by
  refine applyPosts_preserves_runs posts db0 ?_ c s
  intro c2 s2
  unfold lapsAt
  rw [h0]
  rfl

/-- Witness for `laps_assigned_consecutively`: four submissions on the
fixture catalog yield laps `[1, 2]` at section 1. -/
theorem laps_assigned_consecutively_witness :
    exDbEmpty.scores = [] ∧
    lapsAt (applyPosts exDbEmpty
        [{ competitor_id := 1, section_id := 1, points := some 1, is_dnf := false },
         { competitor_id := 1, section_id := 2, points := some 0, is_dnf := false },
         { competitor_id := 1, section_id := 3, points := some 0, is_dnf := false },
         { competitor_id := 1, section_id := 1, points := some 2, is_dnf := false }]) 1 1 =
      List.range' 1 (lapsAt (applyPosts exDbEmpty
        [{ competitor_id := 1, section_id := 1, points := some 1, is_dnf := false },
         { competitor_id := 1, section_id := 2, points := some 0, is_dnf := false },
         { competitor_id := 1, section_id := 3, points := some 0, is_dnf := false },
         { competitor_id := 1, section_id := 1, points := some 2, is_dnf := false }]) 1 1).length ∧
    lapsAt (applyPosts exDbEmpty
        [{ competitor_id := 1, section_id := 1, points := some 1, is_dnf := false },
         { competitor_id := 1, section_id := 2, points := some 0, is_dnf := false },
         { competitor_id := 1, section_id := 3, points := some 0, is_dnf := false },
         { competitor_id := 1, section_id := 1, points := some 2, is_dnf := false }]) 1 1 = [1, 2] :=
  ⟨rfl,
    laps_assigned_consecutively exDbEmpty
      [{ competitor_id := 1, section_id := 1, points := some 1, is_dnf := false },
       { competitor_id := 1, section_id := 2, points := some 0, is_dnf := false },
       { competitor_id := 1, section_id := 3, points := some 0, is_dnf := false },
       { competitor_id := 1, section_id := 1, points := some 2, is_dnf := false }] 1 1 rfl,
    by decide⟩

/-! ### Evaluating the gate under scenario hypotheses -/

theorem canStartNewLap_of_some {db : Db} {cid sid : Nat} {comp : Competitor}
    (h : getCompetitor db cid = some comp) {rcs : List ClassConfig}
    (hrc : db.classes.filter (fun cls =>
      comp.classes.contains cls.id && cls.section_ids.contains sid) = rcs)
    (hne : rcs.isEmpty = false) :
    canStartNewLap db cid sid =
      { canScore := (rcs.foldl (lapLoopStep db cid) ([], 1)).1.isEmpty,
        currentLap := (rcs.foldl (lapLoopStep db cid) ([], 1)).2,
        incompleteSections := (rcs.foldl (lapLoopStep db cid) ([], 1)).1,
        maxLap := rcs.foldl (fun m cls => max m cls.laps) 0 } := by
  unfold canStartNewLap
  rw [h]
  simp only [hrc, hne, Bool.false_eq_true, if_false]

theorem mem_classFilter {db : Db} {cid : Nat} {cls : ClassConfig} {s : Score} :
    s ∈ db.scores.filter (fun x =>
      x.competitor_id == cid && cls.section_ids.contains x.section_id) ↔
    s ∈ db.scores ∧ s.competitor_id = cid ∧ s.section_id ∈ cls.section_ids := by
  rw [List.mem_filter]
  simp [List.elem_iff]

theorem classMaxLapOf_filter_eq {db : Db} {cid : Nat} {cls : ClassConfig} {L : Nat}
    (hbound : ∀ s ∈ db.scores, s.competitor_id = cid → s.lap ≤ L)
    (hex : ∃ i ∈ cls.section_ids, ∃ s ∈ db.scores,
      s.competitor_id = cid ∧ s.section_id = i ∧ s.lap = L) :
    classMaxLapOf (db.scores.filter (fun x =>
      x.competitor_id == cid && cls.section_ids.contains x.section_id)) cls.section_ids = L := by
  apply Nat.le_antisymm
  · apply classMaxLapOf_le
    intro s hs
    rcases mem_classFilter.mp hs with ⟨hm, hc, _⟩
    exact hbound s hm hc
  · rcases hex with ⟨i, hi, s, hm, hc, hsec, hlap⟩
    have hmemf : s ∈ db.scores.filter (fun x =>
        x.competitor_id == cid && cls.section_ids.contains x.section_id) :=
      mem_classFilter.mpr ⟨hm, hc, hsec ▸ hi⟩
    have hle := le_classMaxLapOf hi hmemf hsec
    omega

theorem lapLoopStep_def (db : Db) (cid : Nat) (acc : List String × Nat)
    (cls : ClassConfig) :
    lapLoopStep db cid acc cls =
      (if classMaxLapOf (db.scores.filter (fun x =>
          x.competitor_id == cid && cls.section_ids.contains x.section_id))
            cls.section_ids == 0 then acc
       else (pushMissing db (db.scores.filter (fun x =>
               x.competitor_id == cid && cls.section_ids.contains x.section_id))
               (classMaxLapOf (db.scores.filter (fun x =>
                 x.competitor_id == cid && cls.section_ids.contains x.section_id))
                 cls.section_ids)
               acc.1 cls.section_ids,
             max acc.2 (classMaxLapOf (db.scores.filter (fun x =>
               x.competitor_id == cid && cls.section_ids.contains x.section_id))
               cls.section_ids))) := rfl

theorem lapLoopStep_eval {db : Db} {cid : Nat} {cls : ClassConfig} {L : Nat}
    (acc : List String × Nat) (hL : 0 < L)
    (hmax : classMaxLapOf (db.scores.filter (fun x =>
      x.competitor_id == cid && cls.section_ids.contains x.section_id)) cls.section_ids = L) :
    lapLoopStep db cid acc cls =
      (pushMissing db (db.scores.filter (fun x =>
        x.competitor_id == cid && cls.section_ids.contains x.section_id)) L acc.1 cls.section_ids,
       max acc.2 L) := by
  rw [lapLoopStep_def, hmax]
  have hne : (L == 0) = false := by
    simp
    omega
  rw [hne]
  rfl

theorem pushMissing_filter_complete {db : Db} {cid : Nat} {cls : ClassConfig} {L : Nat}
    (worst : List String)
    (hall : ∀ i ∈ cls.section_ids, ∃ s ∈ db.scores,
      s.competitor_id = cid ∧ s.section_id = i ∧ s.lap = L) :
    pushMissing db (db.scores.filter (fun x =>
      x.competitor_id == cid && cls.section_ids.contains x.section_id))
      L worst cls.section_ids = worst := by
  apply pushMissing_complete
  intro i hi
  rcases hall i hi with ⟨s, hm, hc, hsec, hlap⟩
  exact ⟨s, mem_classFilter.mpr ⟨hm, hc, hsec ▸ hi⟩, hsec, hlap⟩

theorem mem_pushMissing_filter {db : Db} {cid : Nat} {cls : ClassConfig} {L : Nat}
    (name : String) :
    (name ∈ pushMissing db (db.scores.filter (fun x =>
      x.competitor_id == cid && cls.section_ids.contains x.section_id))
      L [] cls.section_ids) ↔
    ∃ i ∈ cls.section_ids,
      (¬ ∃ s ∈ db.scores, s.competitor_id = cid ∧ s.section_id = i ∧ s.lap = L) ∧
      ∃ sec, getSection db i = some sec ∧ sec.name = name := by
  rw [mem_pushMissing]
  simp only [List.not_mem_nil, false_or]
  constructor
  · rintro ⟨i, hi, hmiss, hrest⟩
    refine ⟨i, hi, ?_, hrest⟩
    rintro ⟨s, hm, hc, hsec, hlap⟩
    exact hmiss ⟨s, mem_classFilter.mpr ⟨hm, hc, hsec ▸ hi⟩, hsec, hlap⟩
  · rintro ⟨i, hi, hmiss, hrest⟩
    refine ⟨i, hi, ?_, hrest⟩
    rintro ⟨s, hmf, hsec, hlap⟩
    rcases mem_classFilter.mp hmf with ⟨hm, hc, _⟩
    exact hmiss ⟨s, hm, hc, hsec, hlap⟩

theorem isEmpty_false_of_mem {l : List String} {a : String} (h : a ∈ l) :
    l.isEmpty = false := by
  cases l with
  | nil => cases h
  | cons b t => rfl

/-- C1 (amended): in the two-class scenario — competitor in classes A
and B sharing section S, all of B's sections attempted at the current
lap L, some section T of A still missing its lap-L attempt — the gate
reports `canScore = false` with exactly A's still-missing section names;
a submission at S (which would start lap L+1) is refused with the
blocked message naming those sections, even though with class B alone it
would have been accepted; but a submission at one of A's still-missing
sections is *accepted* (it records the missing attempt), not refused. -/
theorem shared_section_gating
    (db : Db) (A B : ClassConfig) (comp : Competitor) (cid S T L : Nat)
    (p : Option Int) (d : Bool)
    (hfind : getCompetitor db cid = some comp)
    (hclasses : db.classes = [A, B])
    (hcompcls : comp.classes = [A.id, B.id])
    (hSA : S ∈ A.section_ids) (hSB : S ∈ B.section_ids) (hTA : T ∈ A.section_ids)
    (hLpos : 0 < L)
    (hbound : ∀ s ∈ db.scores, s.competitor_id = cid → s.lap ≤ L)
    (hBdone : ∀ i ∈ B.section_ids, ∃ s ∈ db.scores,
      s.competitor_id = cid ∧ s.section_id = i ∧ s.lap = L)
    (hTmiss : ¬ ∃ s ∈ db.scores, s.competitor_id = cid ∧ s.section_id = T ∧ s.lap = L)
    (hsecA : ∀ i ∈ A.section_ids, ∃ sec, getSection db i = some sec)
    (hcapA : L ≤ A.laps) (hcapB : L < B.laps) :
    (canStartNewLap db cid S).canScore = false ∧
    (canStartNewLap db cid S).currentLap = L ∧
    (∀ name, name ∈ (canStartNewLap db cid S).incompleteSections ↔
      ∃ i ∈ A.section_ids,
        (¬ ∃ s ∈ db.scores, s.competitor_id = cid ∧ s.section_id = i ∧ s.lap = L) ∧
        ∃ sec, getSection db i = some sec ∧ sec.name = name) ∧
    postScore db cid S p d =
      (db, .error (blockedMsg L (canStartNewLap db cid S).incompleteSections)) ∧
    (∃ row, (postScore db cid T p d).2 = .ok row ∧
      row.lap = getNextLap db cid T ∧ row.lap ≤ L ∧
      (postScore db cid T p d).1.scores = db.scores ++ [row]) ∧
    (∃ row, (postScore { db with classes := [B] } cid S p d).2 = .ok row ∧
      row.lap = L + 1) := by
  -- the section T cannot belong to B, or its lap-L attempt would exist
  have hTnB : T ∉ B.section_ids := fun hTB => hTmiss (hBdone T hTB)
  -- boolean facts about the class filters
  have hcontA : comp.classes.contains A.id = true :=
    List.elem_iff.mpr (by rw [hcompcls]; exact List.mem_cons_self _ _)
  have hcontB : comp.classes.contains B.id = true :=
    List.elem_iff.mpr (by rw [hcompcls]; exact List.mem_cons_of_mem _ (List.mem_singleton.mpr rfl))
  have hpSA : (comp.classes.contains A.id && A.section_ids.contains S) = true := by
    rw [Bool.and_eq_true]
    exact ⟨hcontA, List.elem_iff.mpr hSA⟩
  have hpSB : (comp.classes.contains B.id && B.section_ids.contains S) = true := by
    rw [Bool.and_eq_true]
    exact ⟨hcontB, List.elem_iff.mpr hSB⟩
  have hpTA : (comp.classes.contains A.id && A.section_ids.contains T) = true := by
    rw [Bool.and_eq_true]
    exact ⟨hcontA, List.elem_iff.mpr hTA⟩
  have hcontTB : B.section_ids.contains T = false :=
    Bool.eq_false_iff.mpr (fun h => hTnB (List.elem_iff.mp h))
  have hpTB : (comp.classes.contains B.id && B.section_ids.contains T) = false := by
    rw [hcontTB, Bool.and_false]
  -- relevant classes for the two target sections
  have hrcS : db.classes.filter (fun cls =>
      comp.classes.contains cls.id && cls.section_ids.contains S) = [A, B] := by
    rw [hclasses]
    simp only [List.filter_cons, List.filter_nil, hpSA, hpSB]
    simp
  have hrcT : db.classes.filter (fun cls =>
      comp.classes.contains cls.id && cls.section_ids.contains T) = [A] := by
    rw [hclasses]
    simp only [List.filter_cons, List.filter_nil, hpTA, hpTB]
    simp
  -- per-class lap maxima
  have hmaxA : classMaxLapOf (db.scores.filter (fun x =>
      x.competitor_id == cid && A.section_ids.contains x.section_id)) A.section_ids = L :=
    classMaxLapOf_filter_eq hbound ⟨S, hSA, hBdone S hSB⟩
  have hmaxB : classMaxLapOf (db.scores.filter (fun x =>
      x.competitor_id == cid && B.section_ids.contains x.section_id)) B.section_ids = L :=
    classMaxLapOf_filter_eq hbound ⟨S, hSB, hBdone S hSB⟩
  -- the fold over [A, B]
  have hstepA : lapLoopStep db cid ([], 1) A =
      (pushMissing db (db.scores.filter (fun x =>
        x.competitor_id == cid && A.section_ids.contains x.section_id)) L [] A.section_ids,
       L) := by
    rw [lapLoopStep_eval ([], 1) hLpos hmaxA]
    simp [Nat.max_eq_right hLpos]
  have hstepB : lapLoopStep db cid
      (pushMissing db (db.scores.filter (fun x =>
        x.competitor_id == cid && A.section_ids.contains x.section_id)) L [] A.section_ids, L) B =
      (pushMissing db (db.scores.filter (fun x =>
        x.competitor_id == cid && A.section_ids.contains x.section_id)) L [] A.section_ids,
       L) := by
    rw [lapLoopStep_eval _ hLpos hmaxB]
    rw [pushMissing_filter_complete _ hBdone]
    simp
  have hfoldS : ([A, B].foldl (lapLoopStep db cid) ([], 1)) =
      (pushMissing db (db.scores.filter (fun x =>
        x.competitor_id == cid && A.section_ids.contains x.section_id)) L [] A.section_ids,
       L) := by
    rw [List.foldl_cons, List.foldl_cons, List.foldl_nil, hstepA, hstepB]
  -- the missing list is nonempty: T's name is in it
  obtain ⟨secT, hsecT⟩ := hsecA T hTA
  have hTmem : secT.name ∈ pushMissing db (db.scores.filter (fun x =>
      x.competitor_id == cid && A.section_ids.contains x.section_id)) L [] A.section_ids :=
    (mem_pushMissing_filter secT.name).mpr ⟨T, hTA, hTmiss, secT, hsecT, rfl⟩
  have hWAne : (pushMissing db (db.scores.filter (fun x =>
      x.competitor_id == cid && A.section_ids.contains x.section_id)) L [] A.section_ids).isEmpty
      = false := isEmpty_false_of_mem hTmem
  -- the gate's verdict at S
  have hcanS : canStartNewLap db cid S =
      { canScore := false, currentLap := L,
        incompleteSections := pushMissing db (db.scores.filter (fun x =>
          x.competitor_id == cid && A.section_ids.contains x.section_id)) L [] A.section_ids,
        maxLap := max A.laps B.laps } := by
    rw [canStartNewLap_of_some hfind hrcS rfl]
    rw [hfoldS]
    dsimp only [List.foldl]
    rw [hWAne, Nat.zero_max]
  -- the gate's verdict at T
  have hcanT : canStartNewLap db cid T =
      { canScore := false, currentLap := L,
        incompleteSections := pushMissing db (db.scores.filter (fun x =>
          x.competitor_id == cid && A.section_ids.contains x.section_id)) L [] A.section_ids,
        maxLap := A.laps } := by
    rw [canStartNewLap_of_some hfind hrcT rfl]
    rw [List.foldl_cons, List.foldl_nil, hstepA]
    dsimp only [List.foldl]
    rw [hWAne, Nat.zero_max]
  -- next laps at the two sections
  have hnextS : getNextLap db cid S = L + 1 := by
    obtain ⟨s0, hm0, hc0, hs0, hl0⟩ := hBdone S hSB
    have hle : getNextLap db cid S ≤ L + 1 :=
      getNextLap_le (fun sc hm hc _ => hbound sc hm hc)
    have hge := le_getNextLap hm0 hc0 hs0
    omega
  have hnextT : getNextLap db cid T ≤ L := by
    have hb : ∀ sc ∈ db.scores, sc.competitor_id = cid → sc.section_id = T →
        sc.lap ≤ L - 1 := by
      intro sc hm hc hs
      have h1 := hbound sc hm hc
      have h2 : sc.lap ≠ L := fun he => hTmiss ⟨sc, hm, hc, hs, he⟩
      omega
    have := getNextLap_le hb
    omega
  have hmaxAB0 : ((max A.laps B.laps == 0) = false) := by
    have := Nat.le_max_right A.laps B.laps
    simp only [beq_eq_false_iff_ne, ne_eq]
    omega
  refine ⟨by rw [hcanS], by rw [hcanS], ?_, ?_, ?_, ?_⟩
  · intro name
    rw [hcanS]
    exact mem_pushMissing_filter name
  · -- submission at S: blocked, naming A's missing sections
    rw [postScore_def, hcanS, hnextS]
    dsimp only
    rw [hmaxAB0]
    simp only [Bool.false_eq_true, if_false]
    have h2 : ¬ (L + 1 > max A.laps B.laps) := by
      have := Nat.le_max_right A.laps B.laps
      omega
    rw [if_neg h2]
    have h3 : (decide (L + 1 > L) && !false) = true := by
      simp
    rw [if_pos h3]
  · -- submission at T: accepted at the derived (missing) lap
    refine ⟨{ id := db.nextScoreId, competitor_id := cid, section_id := T,
              lap := getNextLap db cid T, points := p, is_dnf := d,
              created_at := db.now, updated_at := none }, ?_, rfl, hnextT, ?_⟩ <;>
    · rw [postScore_def, hcanT]
      dsimp only
      have hA0 : ((A.laps == 0) = false) := by
        simp only [beq_eq_false_iff_ne, ne_eq]
        omega
      rw [hA0]
      simp only [Bool.false_eq_true, if_false]
      have h2 : ¬ (getNextLap db cid T > A.laps) := by omega
      rw [if_neg h2]
      have h3 : (decide (getNextLap db cid T > L) && !false) = false := by
        have : ¬ (getNextLap db cid T > L) := by omega
        simp [this]
      rw [h3]
      simp only [Bool.false_eq_true, if_false]
      rw [createScore_at_getNextLap]
  · -- with class B alone, the submission at S would have been accepted
    have hfindB : getCompetitor { db with classes := [B] } cid = some comp := hfind
    have hrcB : ({ db with classes := [B] } : Db).classes.filter (fun cls =>
        comp.classes.contains cls.id && cls.section_ids.contains S) = [B] := by
      show [B].filter (fun cls =>
        comp.classes.contains cls.id && cls.section_ids.contains S) = [B]
      simp only [List.filter_cons, List.filter_nil, hpSB]
      simp
    have hmaxB2 : classMaxLapOf (({ db with classes := [B] } : Db).scores.filter (fun x =>
        x.competitor_id == cid && B.section_ids.contains x.section_id)) B.section_ids = L :=
      hmaxB
    have hstepB2 : lapLoopStep { db with classes := [B] } cid ([], 1) B = ([], L) := by
      rw [lapLoopStep_eval ([], 1) hLpos hmaxB2]
      rw [@pushMissing_filter_complete { db with classes := [B] } cid B L _ hBdone]
      simp [Nat.max_eq_right hLpos]
    have hcanB : canStartNewLap { db with classes := [B] } cid S =
        { canScore := true, currentLap := L, incompleteSections := [],
          maxLap := B.laps } := by
      rw [canStartNewLap_of_some hfindB hrcB rfl]
      rw [List.foldl_cons, List.foldl_nil, hstepB2]
      dsimp only [List.foldl, List.isEmpty]
      rw [Nat.zero_max]
    have hnextS2 : getNextLap { db with classes := [B] } cid S = L + 1 := hnextS
    refine ⟨{ id := ({ db with classes := [B] } : Db).nextScoreId, competitor_id := cid,
              section_id := S, lap := L + 1, points := p, is_dnf := d,
              created_at := ({ db with classes := [B] } : Db).now, updated_at := none },
            ?_, rfl⟩
    rw [postScore_def, hcanB, hnextS2]
    dsimp only
    have hB0 : ((B.laps == 0) = false) := by
      simp only [beq_eq_false_iff_ne, ne_eq]
      omega
    rw [hB0]
    simp only [Bool.false_eq_true, if_false]
    have h2 : ¬ (L + 1 > B.laps) := by omega
    rw [if_neg h2]
    have h3 : (decide (L + 1 > L) && !true) = false := by
      simp
    rw [h3]
    simp only [Bool.false_eq_true, if_false]
    have hnod : ∀ sc ∈ ({ db with classes := [B] } : Db).scores,
        tripleKey sc ≠ (cid, S, L + 1) := by
      intro sc hm hk
      simp only [tripleKey, Prod.mk.injEq] at hk
      have := hbound sc hm hk.1
      omega
    rw [createScore_of_not_exists hnod]

/-- C1 counterexample to the claim as stated: in the fixture, section 2
is one of class A's still-incomplete sections for the current lap
(`canScore = false`, `incompleteSections = ["S2"]`), yet a submitted
attempt at section 2 is *accepted* (it is recorded as lap 1), not
refused. -/
theorem shared_section_gating_claim_false :
    (canStartNewLap exDbC1 1 2).canScore = false ∧
    (canStartNewLap exDbC1 1 2).incompleteSections = ["S2"] ∧
    (¬ ∃ s ∈ exDbC1.scores, s.competitor_id = 1 ∧ s.section_id = 2 ∧ s.lap = 1) ∧
    (postScore exDbC1 1 2 (some 0) false).2 =
      .ok { id := 3, competitor_id := 1, section_id := 2, lap := 1, points := some 0,
            is_dnf := false, created_at := 3, updated_at := none } := by
  decide

/-- Witness for `shared_section_gating` on the fixture: classes A and B
share section 1; B's lap 1 is complete, A misses section 2. -/
theorem shared_section_gating_witness :
    getCompetitor exDbC1 1 = some rider7 ∧
    ((canStartNewLap exDbC1 1 1).canScore = false ∧
    (canStartNewLap exDbC1 1 1).currentLap = 1 ∧
    (∀ name, name ∈ (canStartNewLap exDbC1 1 1).incompleteSections ↔
      ∃ i ∈ clsA.section_ids,
        (¬ ∃ s ∈ exDbC1.scores, s.competitor_id = 1 ∧ s.section_id = i ∧ s.lap = 1) ∧
        ∃ sec, getSection exDbC1 i = some sec ∧ sec.name = name) ∧
    postScore exDbC1 1 1 (some 0) false =
      (exDbC1, .error (blockedMsg 1 (canStartNewLap exDbC1 1 1).incompleteSections)) ∧
    (∃ row, (postScore exDbC1 1 2 (some 0) false).2 = .ok row ∧
      row.lap = getNextLap exDbC1 1 2 ∧ row.lap ≤ 1 ∧
      (postScore exDbC1 1 2 (some 0) false).1.scores = exDbC1.scores ++ [row]) ∧
    (∃ row, (postScore { exDbC1 with classes := [clsB] } 1 1 (some 0) false).2 = .ok row ∧
      row.lap = 1 + 1)) :=
  ⟨by decide,
    shared_section_gating exDbC1 clsA clsB rider7 1 1 2 1 (some 0) false
      (by decide) rfl rfl (by decide) (by decide) (by decide) (by decide)
      (by decide) (by decide) (by decide)
      (by intro i hi; fin_cases hi <;> exact ⟨_, rfl⟩)
      (by decide) (by decide)⟩

/-! ### The three refusal messages are pairwise distinct conditions -/

theorem courseCompleteMsg_head (n : Nat) :
    ((courseCompleteMsg n).data).head? = some 'A' := by
  show ((("All " ++ toString n) ++ " laps already scored for this section").data).head?
    = some 'A'
  rw [String.data_append, String.data_append]
  rfl

theorem blockedMsg_head (cur : Nat) (missing : List String) :
    ((blockedMsg cur missing).data).head? = some 'M' := by
  show ((("Must complete Lap " ++ toString cur) ++
    (" first. Missing: " ++ String.intercalate ", " missing)).data).head? = some 'M'
  rw [String.data_append, String.data_append]
  rfl

theorem courseCompleteMsg_ne_blockedMsg (n cur : Nat) (missing : List String) :
    courseCompleteMsg n ≠ blockedMsg cur missing := by
  intro h
  have h1 := courseCompleteMsg_head n
  rw [h, blockedMsg_head] at h1
  cases h1

theorem courseCompleteMsg_ne_duplicateMsg (n : Nat) :
    courseCompleteMsg n ≠ "Score already exists for this lap" := by
  intro h
  have h1 := courseCompleteMsg_head n
  rw [h] at h1
  cases h1

/-- C2 (amended): when a competitor is in two relevant classes with
different `laps` values sharing the target section, the cap that governs
is the *largest* laps value: a submission is refused with the distinct
course-complete condition exactly when the derived lap exceeds the
larger class's laps — the smaller class's completion cap never refuses
by itself — and the course-complete condition is distinct from the
blocked-by-incomplete-lap refusal (and from the duplicate error). -/
theorem lap_cap_uses_largest
    (db : Db) (A B : ClassConfig) (comp : Competitor) (cid sid : Nat)
    (p : Option Int) (d : Bool)
    (hfind : getCompetitor db cid = some comp)
    (hclasses : db.classes = [A, B])
    (hcompcls : comp.classes = [A.id, B.id])
    (hsA : sid ∈ A.section_ids) (hsB : sid ∈ B.section_ids)
    (hlaps : A.laps < B.laps) :
    (canStartNewLap db cid sid).maxLap = B.laps ∧
    (getNextLap db cid sid > B.laps →
      postScore db cid sid p d = (db, .error (courseCompleteMsg B.laps))) ∧
    (getNextLap db cid sid ≤ B.laps →
      ∀ n, (postScore db cid sid p d).2 ≠ .error (courseCompleteMsg n)) ∧
    (∀ n cur missing, courseCompleteMsg n ≠ blockedMsg cur missing) := by
  have hcontA : comp.classes.contains A.id = true :=
    List.elem_iff.mpr (by rw [hcompcls]; exact List.mem_cons_self _ _)
  have hcontB : comp.classes.contains B.id = true :=
    List.elem_iff.mpr (by rw [hcompcls]; exact List.mem_cons_of_mem _ (List.mem_singleton.mpr rfl))
  have hpA : (comp.classes.contains A.id && A.section_ids.contains sid) = true := by
    rw [Bool.and_eq_true]
    exact ⟨hcontA, List.elem_iff.mpr hsA⟩
  have hpB : (comp.classes.contains B.id && B.section_ids.contains sid) = true := by
    rw [Bool.and_eq_true]
    exact ⟨hcontB, List.elem_iff.mpr hsB⟩
  have hrc : db.classes.filter (fun cls =>
      comp.classes.contains cls.id && cls.section_ids.contains sid) = [A, B] := by
    rw [hclasses]
    simp only [List.filter_cons, List.filter_nil, hpA, hpB]
    simp
  have hM : (canStartNewLap db cid sid).maxLap = B.laps := by
    rw [canStartNewLap_of_some hfind hrc rfl]
    dsimp only [List.foldl]
    rw [Nat.zero_max]
    exact Nat.max_eq_right (Nat.le_of_lt hlaps)
  have hB0 : ((B.laps == 0) = false) := by
    simp only [beq_eq_false_iff_ne, ne_eq]
    omega
  refine ⟨hM, ?_, ?_, courseCompleteMsg_ne_blockedMsg⟩
  · intro hgt
    rw [postScore_def, hM, hB0]
    simp only [Bool.false_eq_true, if_false]
    rw [if_pos hgt]
  · intro hle n
    rw [postScore_def, hM, hB0]
    simp only [Bool.false_eq_true, if_false]
    have hngt : ¬ (getNextLap db cid sid > B.laps) := by omega
    rw [if_neg hngt]
    by_cases hblk : (decide (getNextLap db cid sid > (canStartNewLap db cid sid).currentLap)
        && !(canStartNewLap db cid sid).canScore) = true
    · rw [if_pos hblk]
      intro h
      simp only [Prod.snd, Except.error.injEq] at h
      exact courseCompleteMsg_ne_blockedMsg n _ _ h.symm
    · rw [if_neg hblk]
      by_cases hex : ∃ sc ∈ db.scores, tripleKey sc = (cid, sid, getNextLap db cid sid)
      · rw [createScore_of_exists hex]
        intro h
        simp only [Except.error.injEq] at h
        exact courseCompleteMsg_ne_duplicateMsg n h.symm
      · push_neg at hex
        rw [createScore_of_not_exists hex]
        intro h
        cases h

/-- C2 counterexample to the claim as stated: in the fixture the next
lap (3) exceeds the smaller class's `laps` (2), yet the submission is
*accepted* — no course-complete rejection fires. -/
theorem lap_cap_claim_false :
    getNextLap exDbC2 1 1 = 3 ∧ clsA2.laps = 2 ∧
    (postScore exDbC2 1 1 (some 0) false).2 =
      .ok { id := 3, competitor_id := 1, section_id := 1, lap := 3, points := some 0,
            is_dnf := false, created_at := 3, updated_at := none } := by
  decide

/-- Witness for `lap_cap_uses_largest` on the fixture, plus a concrete
evaluation showing that once the larger cap (3 laps) is exhausted the
distinct course-complete message is returned. -/
theorem lap_cap_uses_largest_witness :
    getCompetitor exDbC2 1 = some rider7 ∧ clsA2.laps < clsB2.laps ∧
    ((canStartNewLap exDbC2 1 1).maxLap = clsB2.laps ∧
    (getNextLap exDbC2 1 1 > clsB2.laps →
      postScore exDbC2 1 1 (some 0) false = (exDbC2, .error (courseCompleteMsg clsB2.laps))) ∧
    (getNextLap exDbC2 1 1 ≤ clsB2.laps →
      ∀ n, (postScore exDbC2 1 1 (some 0) false).2 ≠ .error (courseCompleteMsg n)) ∧
    (∀ n cur missing, courseCompleteMsg n ≠ blockedMsg cur missing)) ∧
    (postScore (postScore exDbC2 1 1 (some 0) false).1 1 1 (some 0) false).2 =
      .error (courseCompleteMsg 3) :=
  ⟨by decide, by decide,
    lap_cap_uses_largest exDbC2 clsA2 clsB2 rider7 1 1 (some 0) false
      (by decide) rfl rfl (by decide) (by decide) (by decide),
    by decide⟩

/-- C4: the scoring endpoint passes the request's `points` through even
when the did-not-start flag is set, so a "did not start" attempt
submitted with numeric points is stored with both markers and its points
are added to the leaderboard total (here 5, not the claimed zero) —
while still counting toward `sections_done` and `dnf_count`. -/
theorem dnf_submission_keeps_points :
    (postScore exDbC4 1 1 (some 5) true).2 =
      .ok { id := 1, competitor_id := 1, section_id := 1, lap := 1, points := some 5,
            is_dnf := true, created_at := 1, updated_at := none } ∧
    getLeaderboard (postScore exDbC4 1 1 (some 5) true).1 =
      [{ id := 1, number := 7, name := "Rider", classes := ["C"],
         class_totals := [("C", { total := 5, sections_done := 1, dnf_count := 1,
                                  last_scored_at := 1 })] }] := by
  decide

/-- C9 counterexample to the claim as stated: for the fixture rider with
a single "did not start" attempt, the live leaderboard computes a
per-class total of 0, while both the CSV export and the final-standings
table compute 20 for the same rider and class. -/
theorem standings_totals_claim_false :
    (getLeaderboard exDbC9).map (fun e => lookupCT e "D") =
      [some { total := 0, sections_done := 1, dnf_count := 1, last_scored_at := 1 }] ∧
    csvRiderTotal exDbC9.sections clsD exDbC9.scores 1 = 20 ∧
    finalRowTotal exDbC9.sections clsD exDbC9.scores 1 = 20 ∧
    ¬ ((0 : Int) = 20) := by
  decide

/-- C9 (amended): the two exported/printed standings agree with each
other — the CSV export's per-rider total and the final-scores table's
row total apply the identical rule (20 substituted for a missing attempt
or `null` points), cell by cell over the same grid; the live
leaderboard, however, scores a "did not start" as zero, so its total
diverges from the exports whenever a grid cell lacks numeric points. -/
theorem export_totals_agree (allSections : List Section) (cls : ClassConfig)
    (scores : List Score) (riderId : Nat) :
    csvRiderTotal allSections cls scores riderId =
      finalRowTotal allSections cls scores riderId ∧
    (∀ secId lap, csvCell scores riderId secId lap =
      finalGetScore scores riderId secId lap) :=
  ⟨rfl, fun _ _ => rfl⟩

/-! ### Lemmas about the stable sort model and the comparators -/

theorem mem_jsInsert (le : α → α → Bool) (a b : α) :
    ∀ l : List α, b ∈ jsInsert le a l ↔ b = a ∨ b ∈ l := by
  intro l
  induction l with
  | nil => simp [jsInsert]
  | cons c t ih =>
    unfold jsInsert
    by_cases h : le a c = true
    · rw [if_pos h]
      simp [List.mem_cons]
    · rw [if_neg h]
      simp only [List.mem_cons, ih]
      tauto

theorem mem_jsSort (le : α → α → Bool) (b : α) :
    ∀ l : List α, b ∈ jsSort le l ↔ b ∈ l := by
  intro l
  induction l with
  | nil => simp [jsSort]
  | cons c t ih =>
    unfold jsSort
    rw [mem_jsInsert, ih]
    simp [List.mem_cons]

theorem pairwise_jsInsert (le : α → α → Bool) (all : List α)
    (htot : ∀ x ∈ all, ∀ y ∈ all, le x y = true ∨ le y x = true)
    (htrans : ∀ x ∈ all, ∀ y ∈ all, ∀ z ∈ all,
      le x y = true → le y z = true → le x z = true) :
    ∀ (l : List α) (a : α), a ∈ all → (∀ x ∈ l, x ∈ all) →
      List.Pairwise (fun x y => le x y = true) l →
      List.Pairwise (fun x y => le x y = true) (jsInsert le a l) := by
  intro l
  induction l with
  | nil =>
    intro a _ _ _
    simp [jsInsert]
  | cons b t ih =>
    intro a ha hsub hp
    rw [List.pairwise_cons] at hp
    rcases hp with ⟨hb, hpt⟩
    unfold jsInsert
    by_cases hab : le a b = true
    · rw [if_pos hab]
      rw [List.pairwise_cons]
      refine ⟨?_, List.pairwise_cons.mpr ⟨hb, hpt⟩⟩
      intro x hx
      rcases List.mem_cons.mp hx with rfl | hx
      · exact hab
      · exact htrans a ha b (hsub b (List.mem_cons_self b t)) x
          (hsub x (List.mem_cons_of_mem b hx)) hab (hb x hx)
    · rw [if_neg hab]
      rw [List.pairwise_cons]
      constructor
      · intro x hx
        rcases (mem_jsInsert le a x t).mp hx with heq | hx
        · rw [heq]
          rcases htot a ha b (hsub b (List.mem_cons_self b t)) with h | h
          · exact absurd h hab
          · exact h
        · exact hb x hx
      · exact ih a ha (fun x hx => hsub x (List.mem_cons_of_mem b hx)) hpt

theorem pairwise_jsSort (le : α → α → Bool) (all : List α)
    (htot : ∀ x ∈ all, ∀ y ∈ all, le x y = true ∨ le y x = true)
    (htrans : ∀ x ∈ all, ∀ y ∈ all, ∀ z ∈ all,
      le x y = true → le y z = true → le x z = true) :
    ∀ l : List α, (∀ x ∈ l, x ∈ all) →
      List.Pairwise (fun x y => le x y = true) (jsSort le l) := by
  intro l
  induction l with
  | nil => intro _; simp [jsSort]
  | cons a t ih =>
    intro hsub
    unfold jsSort
    refine pairwise_jsInsert le all htot htrans _ a (hsub a (List.mem_cons_self a t)) ?_ ?_
    · intro x hx
      exact hsub x (List.mem_cons_of_mem a ((mem_jsSort le x t).mp hx))
    · exact ih (fun x hx => hsub x (List.mem_cons_of_mem a hx))

theorem cmpCsv_def (clsId : String) (a b : LeaderboardEntry) :
    cmpCsv clsId a b =
      if (keyTotal clsId a != keyTotal clsId b) = true then
        keyTotal clsId a - keyTotal clsId b
      else if (keyTime clsId a != keyTime clsId b) = true then
        (if keyTime clsId a < keyTime clsId b then -1 else 1)
      else 0 := rfl

theorem cmpFinal_def (clsId : String) (a b : LeaderboardEntry) :
    cmpFinal clsId a b =
      if (keyTotal clsId a != keyTotal clsId b) = true then
        keyTotal clsId a - keyTotal clsId b
      else if (keyTime clsId a != 0 && keyTime clsId b != 0 &&
               keyTime clsId a != keyTime clsId b) = true then
        (if keyTime clsId a < keyTime clsId b then -1 else 1)
      else 0 := rfl

theorem cmpCsv_le_iff (clsId : String) (a b : LeaderboardEntry) :
    cmpCsv clsId a b ≤ 0 ↔
      (keyTotal clsId a < keyTotal clsId b ∨
       (keyTotal clsId a = keyTotal clsId b ∧ keyTime clsId a ≤ keyTime clsId b)) := by
  rw [cmpCsv_def]
  by_cases h1 : keyTotal clsId a = keyTotal clsId b
  · have hbne : (keyTotal clsId a != keyTotal clsId b) = false := by simp [h1]
    rw [hbne]
    simp only [Bool.false_eq_true, if_false]
    by_cases h2 : keyTime clsId a = keyTime clsId b
    · have h2b : (keyTime clsId a != keyTime clsId b) = false := by simp [h2]
      rw [h2b]
      simp [h1, h2]
    · have h2b : (keyTime clsId a != keyTime clsId b) = true := by simp [h2]
      rw [h2b]
      simp only [if_true]
      by_cases h3 : keyTime clsId a < keyTime clsId b
      · rw [if_pos h3]
        simp [h1, h3]
        omega
      · rw [if_neg h3]
        simp [h1]
        omega
  · have hbne : (keyTotal clsId a != keyTotal clsId b) = true := by simp [h1]
    rw [hbne]
    simp only [if_true, sub_nonpos]
    constructor
    · intro h
      exact Or.inl (lt_of_le_of_ne h h1)
    · rintro (h | ⟨h, _⟩)
      · exact le_of_lt h
      · exact absurd h h1

theorem cmpCsv_le_total (clsId : String) (a b : LeaderboardEntry) :
    cmpCsv clsId a b ≤ 0 ∨ cmpCsv clsId b a ≤ 0 := by
  rw [cmpCsv_le_iff, cmpCsv_le_iff]
  omega

theorem cmpCsv_le_trans (clsId : String) (a b c : LeaderboardEntry) :
    cmpCsv clsId a b ≤ 0 → cmpCsv clsId b c ≤ 0 → cmpCsv clsId a c ≤ 0 := by
  rw [cmpCsv_le_iff, cmpCsv_le_iff, cmpCsv_le_iff]
  omega

theorem cmpFinal_eq_cmpCsv_of_times_pos {clsId : String} {a b : LeaderboardEntry}
    (ha : keyTime clsId a ≠ 0) (hb : keyTime clsId b ≠ 0) :
    cmpFinal clsId a b = cmpCsv clsId a b := by
  rw [cmpFinal_def, cmpCsv_def]
  by_cases h1 : keyTotal clsId a = keyTotal clsId b
  · have hbne : (keyTotal clsId a != keyTotal clsId b) = false := by simp [h1]
    rw [hbne]
    simp only [Bool.false_eq_true, if_false]
    have haT : (keyTime clsId a != 0) = true := by simp [ha]
    have hbT : (keyTime clsId b != 0) = true := by simp [hb]
    rw [haT, hbT]
    simp
  · have hbne : (keyTotal clsId a != keyTotal clsId b) = true := by simp [h1]
    rw [hbne]
    simp

/-! ### Lemmas about the rank-assignment loop -/

theorem rankGo_length (clsId : String) :
    ∀ (l : List LeaderboardEntry) (idx : Nat) (prev : LeaderboardEntry) (r : Nat),
      (rankGo clsId idx prev r l).length = l.length := by
  intro l
  induction l with
  | nil => intro idx prev r; rfl
  | cons e rest ih =>
    intro idx prev r
    simp only [rankGo, List.length_cons]
    rw [ih]

theorem rankGo_map_fst (clsId : String) :
    ∀ (l : List LeaderboardEntry) (idx : Nat) (prev : LeaderboardEntry) (r : Nat),
      (rankGo clsId idx prev r l).map (fun p => p.1) = l := by
  intro l
  induction l with
  | nil => intro idx prev r; rfl
  | cons e rest ih =>
    intro idx prev r
    simp only [rankGo, List.map_cons]
    rw [ih]

theorem assignRanks_length (clsId : String) (l : List LeaderboardEntry) :
    (assignRanks clsId l).length = l.length := by
  cases l with
  | nil => rfl
  | cons e rest =>
    simp only [assignRanks, List.length_cons]
    rw [rankGo_length]

theorem assignRanks_map_fst (clsId : String) (l : List LeaderboardEntry) :
    (assignRanks clsId l).map (fun p => p.1) = l := by
  cases l with
  | nil => rfl
  | cons e rest =>
    simp only [assignRanks, List.map_cons]
    rw [rankGo_map_fst]

theorem rankGo_adjacent (clsId : String) :
    ∀ (l : List LeaderboardEntry) (idx : Nat) (prev : LeaderboardEntry) (r : Nat)
      (i : Nat) (hi : i + 1 < (rankGo clsId idx prev r l).length)
      (hi0 : i < (rankGo clsId idx prev r l).length),
      (rankKey clsId ((rankGo clsId idx prev r l).get ⟨i + 1, hi⟩).1 =
         rankKey clsId ((rankGo clsId idx prev r l).get ⟨i, hi0⟩).1 →
       ((rankGo clsId idx prev r l).get ⟨i + 1, hi⟩).2 =
         ((rankGo clsId idx prev r l).get ⟨i, hi0⟩).2) ∧
      (rankKey clsId ((rankGo clsId idx prev r l).get ⟨i + 1, hi⟩).1 ≠
         rankKey clsId ((rankGo clsId idx prev r l).get ⟨i, hi0⟩).1 →
       ((rankGo clsId idx prev r l).get ⟨i + 1, hi⟩).2 = idx + i + 2) := by
  intro l
  induction l with
  | nil =>
    intro idx prev r i hi hi0
    simp [rankGo] at hi
  | cons e rest ih =>
    intro idx prev r i hi hi0
    cases i with
    | zero =>
      cases rest with
      | nil => simp [rankGo, rankGo_length] at hi
      | cons f rest2 =>
        by_cases hk : rankKey clsId f = rankKey clsId e
        · constructor
          · intro _
            show (if rankKey clsId f = rankKey clsId e then
                (if rankKey clsId e = rankKey clsId prev then r else idx + 1)
              else idx + 1 + 1) =
              (if rankKey clsId e = rankKey clsId prev then r else idx + 1)
            rw [if_pos hk]
          · intro hne
            exact absurd hk (by
              simpa [rankGo] using hne)
        · constructor
          · intro heq
            exact absurd (by simpa [rankGo] using heq) hk
          · intro _
            show (if rankKey clsId f = rankKey clsId e then
                (if rankKey clsId e = rankKey clsId prev then r else idx + 1)
              else idx + 1 + 1) = idx + 0 + 2
            rw [if_neg hk]
    | succ j =>
      have hlen := rankGo_length clsId (e :: rest) idx prev r
      have hj1 : j + 1 < (rankGo clsId (idx + 1) e
          (if rankKey clsId e = rankKey clsId prev then r else idx + 1) rest).length := by
        rw [rankGo_length] at hi ⊢
        simp only [List.length_cons] at hi
        omega
      have hj0 : j < (rankGo clsId (idx + 1) e
          (if rankKey clsId e = rankKey clsId prev then r else idx + 1) rest).length := by
        omega
      have := ih (idx + 1) e
        (if rankKey clsId e = rankKey clsId prev then r else idx + 1) j hj1 hj0
      constructor
      · intro heq
        exact this.1 heq
      · intro hne
        have h2 := this.2 hne
        have h3 : ((rankGo clsId idx prev r (e :: rest)).get ⟨j + 1 + 1, hi⟩).2 =
            idx + 1 + j + 2 := h2
        rw [h3]
        omega

theorem assignRanks_adjacent (clsId : String) (l : List LeaderboardEntry)
    (i : Nat) (hi : i + 1 < (assignRanks clsId l).length)
    (hi0 : i < (assignRanks clsId l).length) :
    (rankKey clsId ((assignRanks clsId l).get ⟨i + 1, hi⟩).1 =
       rankKey clsId ((assignRanks clsId l).get ⟨i, hi0⟩).1 →
     ((assignRanks clsId l).get ⟨i + 1, hi⟩).2 =
       ((assignRanks clsId l).get ⟨i, hi0⟩).2) ∧
    (rankKey clsId ((assignRanks clsId l).get ⟨i + 1, hi⟩).1 ≠
       rankKey clsId ((assignRanks clsId l).get ⟨i, hi0⟩).1 →
     ((assignRanks clsId l).get ⟨i + 1, hi⟩).2 = i + 2) := by
  cases l with
  | nil => simp [assignRanks] at hi
  | cons e rest =>
    cases i with
    | zero =>
      cases rest with
      | nil => simp [assignRanks, rankGo_length] at hi
      | cons f rest2 =>
        by_cases hk : rankKey clsId f = rankKey clsId e
        · constructor
          · intro _
            show (if rankKey clsId f = rankKey clsId e then 1 else 1 + 1) = 1
            rw [if_pos hk]
          · intro hne
            exact absurd hk (by simpa [assignRanks, rankGo] using hne)
        · constructor
          · intro heq
            exact absurd (by simpa [assignRanks, rankGo] using heq) hk
          · intro _
            show (if rankKey clsId f = rankKey clsId e then 1 else 1 + 1) = 0 + 2
            rw [if_neg hk]
    | succ j =>
      have hj1 : j + 1 < (rankGo clsId 1 e 1 rest).length := by
        have := assignRanks_length clsId (e :: rest)
        rw [rankGo_length]
        simp only [assignRanks, List.length_cons, rankGo_length] at hi
        omega
      have hj0 : j < (rankGo clsId 1 e 1 rest).length := by omega
      have := rankGo_adjacent clsId rest 1 e 1 j hj1 hj0
      constructor
      · intro heq
        exact this.1 heq
      · intro hne
        have h2 := this.2 hne
        have h3 : ((assignRanks clsId (e :: rest)).get ⟨j + 1 + 1, hi⟩).2 =
            1 + j + 2 := h2
        rw [h3]
        omega

theorem getRankedByClass_def (cls : ClassConfig) (lb : List LeaderboardEntry) :
    getRankedByClass cls lb =
      (assignRanks cls.id (jsSort (fun a b => decide (cmpFinal cls.id a b ≤ 0))
        ((lb.filter (fun c => c.classes.contains cls.id)).filter
          (isCompleteFor cls.id (cls.section_ids.length * cls.laps))))).map
        (fun p => { entry := p.1, rank := p.2, completed := true }) ++
      (jsSort (fun a b => decide (cmpFinal cls.id a b ≤ 0))
        ((lb.filter (fun c => c.classes.contains cls.id)).filter
          (fun c => !(isCompleteFor cls.id (cls.section_ids.length * cls.laps) c)))).map
        (fun e => { entry := e, rank := 0, completed := false }) := rfl

theorem buildClassRanked_def (allSections : List Section) (cls : ClassConfig)
    (lb : List LeaderboardEntry) :
    buildClassRanked allSections cls lb =
      (assignRanks cls.id (jsSort (fun a b => decide (cmpCsv cls.id a b ≤ 0))
        ((lb.filter (fun c => c.classes.contains cls.id)).filter
          (isCompleteFor cls.id
            ((allSections.filter (fun s => cls.section_ids.contains s.id)).length * cls.laps))))).map
        (fun p => { entry := p.1, rank := some p.2 }) ++
      (jsSort (fun a b => decide (cmpCsv cls.id a b ≤ 0))
        ((lb.filter (fun c => c.classes.contains cls.id)).filter
          (fun c => !(isCompleteFor cls.id
            ((allSections.filter (fun s => cls.section_ids.contains s.id)).length * cls.laps) c)))).map
        (fun e => { entry := e, rank := none }) := rfl

theorem isCompleteFor_iff (clsId : String) (m : Nat) (e : LeaderboardEntry) :
    isCompleteFor clsId m e = true ↔
      ∃ ct, lookupCT e clsId = some ct ∧ m ≤ ct.sections_done := by
  unfold isCompleteFor
  cases h : lookupCT e clsId with
  | none => simp [h]
  | some ct => simp [h]

theorem csv_sort_pairwise (clsId : String) (l : List LeaderboardEntry) :
    List.Pairwise (fun a b => cmpCsv clsId a b ≤ 0)
      (jsSort (fun a b => decide (cmpCsv clsId a b ≤ 0)) l) := by
  have h := pairwise_jsSort (fun a b => decide (cmpCsv clsId a b ≤ 0)) l
    (fun x _ y _ => by
      rcases cmpCsv_le_total clsId x y with h | h
      · exact Or.inl (decide_eq_true h)
      · exact Or.inr (decide_eq_true h))
    (fun x _ y _ z _ hxy hyz =>
      decide_eq_true (cmpCsv_le_trans clsId x y z (of_decide_eq_true hxy) (of_decide_eq_true hyz)))
    l (fun x hx => hx)
  exact h.imp (fun hd => of_decide_eq_true hd)

theorem final_sort_pairwise (clsId : String) (lb l : List LeaderboardEntry)
    (hsub : ∀ x ∈ l, x ∈ lb)
    (htimes : ∀ e ∈ lb, keyTime clsId e ≠ 0) :
    List.Pairwise (fun a b => cmpFinal clsId a b ≤ 0)
      (jsSort (fun a b => decide (cmpFinal clsId a b ≤ 0)) l) := by
  have h := pairwise_jsSort (fun a b => decide (cmpFinal clsId a b ≤ 0)) lb
    (fun x hx y hy => by
      rw [decide_eq_true_eq, decide_eq_true_eq,
        cmpFinal_eq_cmpCsv_of_times_pos (htimes x hx) (htimes y hy),
        cmpFinal_eq_cmpCsv_of_times_pos (htimes y hy) (htimes x hx)]
      exact cmpCsv_le_total clsId x y)
    (fun x hx y hy z hz hxy hyz => by
      rw [decide_eq_true_eq] at hxy hyz ⊢
      rw [cmpFinal_eq_cmpCsv_of_times_pos (htimes x hx) (htimes y hy)] at hxy
      rw [cmpFinal_eq_cmpCsv_of_times_pos (htimes y hy) (htimes z hz)] at hyz
      rw [cmpFinal_eq_cmpCsv_of_times_pos (htimes x hx) (htimes z hz)]
      exact cmpCsv_le_trans clsId x y z hxy hyz)
    l hsub
  exact h.imp (fun hd => of_decide_eq_true hd)

/-- C5: in both standings renderers the output splits into the completed
partition followed by the incomplete partition (never interleaved);
every incomplete row carries the unranked sentinel (0 in the client,
`'-'`/`none` in the CSV export); a row is in the completed partition
precisely when its `sections_done` reaches `laps × sectionCount`; and
both partitions are sorted by the same `(total, lastScoredAt)`
comparator as each other (for the client renderer, whose comparator
guards on empty timestamps, sortedness is stated for boards where every
entry has a timestamp). -/
theorem completion_partition (allSections : List Section) (cls : ClassConfig)
    (lb : List LeaderboardEntry) :
    (∃ L1 L2, getRankedByClass cls lb = L1 ++ L2 ∧
      (∀ r ∈ L1, r.completed = true) ∧
      (∀ r ∈ L2, r.completed = false ∧ r.rank = 0) ∧
      ((∀ e ∈ lb, keyTime cls.id e ≠ 0) →
        L1.Pairwise (fun a b => cmpFinal cls.id a.entry b.entry ≤ 0) ∧
        L2.Pairwise (fun a b => cmpFinal cls.id a.entry b.entry ≤ 0))) ∧
    (∀ r ∈ getRankedByClass cls lb,
      (r.completed = true ↔ ∃ ct, lookupCT r.entry cls.id = some ct ∧
        cls.section_ids.length * cls.laps ≤ ct.sections_done)) ∧
    (∃ M1 M2, buildClassRanked allSections cls lb = M1 ++ M2 ∧
      (∀ r ∈ M1, r.rank ≠ none) ∧
      (∀ r ∈ M2, r.rank = none) ∧
      M1.Pairwise (fun a b => cmpCsv cls.id a.entry b.entry ≤ 0) ∧
      M2.Pairwise (fun a b => cmpCsv cls.id a.entry b.entry ≤ 0)) ∧
    (∀ r ∈ buildClassRanked allSections cls lb,
      (r.rank ≠ none ↔ ∃ ct, lookupCT r.entry cls.id = some ct ∧
        (allSections.filter (fun s => cls.section_ids.contains s.id)).length * cls.laps
          ≤ ct.sections_done)) := by
  refine ⟨?_, ?_, ?_, ?_⟩
  · refine ⟨_, _, getRankedByClass_def cls lb, ?_, ?_, ?_⟩
    · intro r hr
      rcases List.mem_map.mp hr with ⟨p, _, rfl⟩
      rfl
    · intro r hr
      rcases List.mem_map.mp hr with ⟨e, _, rfl⟩
      exact ⟨rfl, rfl⟩
    · intro htimes
      constructor
      · rw [List.pairwise_map]
        have hpw : List.Pairwise (fun a b => cmpFinal cls.id a b ≤ 0)
            (jsSort (fun a b => decide (cmpFinal cls.id a b ≤ 0))
              ((lb.filter (fun c => c.classes.contains cls.id)).filter
                (isCompleteFor cls.id (cls.section_ids.length * cls.laps)))) :=
          final_sort_pairwise cls.id lb _
            (fun x hx => List.mem_of_mem_filter (List.mem_of_mem_filter hx)) htimes
        have h2 : ((assignRanks cls.id (jsSort (fun a b => decide (cmpFinal cls.id a b ≤ 0))
            ((lb.filter (fun c => c.classes.contains cls.id)).filter
              (isCompleteFor cls.id (cls.section_ids.length * cls.laps))))).map
            (fun p : LeaderboardEntry × Nat => p.1)).Pairwise
            (fun a b => cmpFinal cls.id a b ≤ 0) := by
          rw [assignRanks_map_fst]
          exact hpw
        exact List.pairwise_map.mp h2
      · rw [List.pairwise_map]
        exact final_sort_pairwise cls.id lb _
          (fun x hx => List.mem_of_mem_filter (List.mem_of_mem_filter hx)) htimes
  · intro r hr
    rw [getRankedByClass_def] at hr
    rcases List.mem_append.mp hr with hr | hr
    · rcases List.mem_map.mp hr with ⟨p, hp, rfl⟩
      have hp1 : p.1 ∈ (assignRanks cls.id (jsSort (fun a b => decide (cmpFinal cls.id a b ≤ 0))
          ((lb.filter (fun c => c.classes.contains cls.id)).filter
            (isCompleteFor cls.id (cls.section_ids.length * cls.laps))))).map
            (fun p : LeaderboardEntry × Nat => p.1) :=
        List.mem_map.mpr ⟨p, hp, rfl⟩
      rw [assignRanks_map_fst] at hp1
      have hmem := (mem_jsSort _ _ _).mp hp1
      have hcomp := (List.mem_filter.mp hmem).2
      simp only [isCompleteFor_iff] at hcomp
      simpa using hcomp
    · rcases List.mem_map.mp hr with ⟨e, he, rfl⟩
      have hmem := (mem_jsSort _ _ _).mp he
      have hfb : isCompleteFor cls.id (cls.section_ids.length * cls.laps) e = false := by
        have := (List.mem_filter.mp hmem).2
        simpa using this
      constructor
      · intro hfalse
        exact absurd hfalse (by simp)
      · intro hex
        have hct : isCompleteFor cls.id (cls.section_ids.length * cls.laps) e = true :=
          (isCompleteFor_iff _ _ _).mpr (by simpa using hex)
        rw [hfb] at hct
        exact absurd hct (by simp)
  · refine ⟨_, _, buildClassRanked_def allSections cls lb, ?_, ?_, ?_, ?_⟩
    · intro r hr
      rcases List.mem_map.mp hr with ⟨p, _, rfl⟩
      simp
    · intro r hr
      rcases List.mem_map.mp hr with ⟨e, _, rfl⟩
      rfl
    · rw [List.pairwise_map]
      have hpw := csv_sort_pairwise cls.id
        ((lb.filter (fun c => c.classes.contains cls.id)).filter
          (isCompleteFor cls.id
            ((allSections.filter (fun s => cls.section_ids.contains s.id)).length * cls.laps)))
      have h2 : ((assignRanks cls.id (jsSort (fun a b => decide (cmpCsv cls.id a b ≤ 0))
          ((lb.filter (fun c => c.classes.contains cls.id)).filter
            (isCompleteFor cls.id
              ((allSections.filter (fun s => cls.section_ids.contains s.id)).length * cls.laps))))).map
          (fun p : LeaderboardEntry × Nat => p.1)).Pairwise
          (fun a b => cmpCsv cls.id a b ≤ 0) := by
        rw [assignRanks_map_fst]
        exact hpw
      exact List.pairwise_map.mp h2
    · rw [List.pairwise_map]
      exact csv_sort_pairwise cls.id _
  · intro r hr
    rw [buildClassRanked_def] at hr
    rcases List.mem_append.mp hr with hr | hr
    · rcases List.mem_map.mp hr with ⟨p, hp, rfl⟩
      have hp1 : p.1 ∈ (assignRanks cls.id (jsSort (fun a b => decide (cmpCsv cls.id a b ≤ 0))
          ((lb.filter (fun c => c.classes.contains cls.id)).filter
            (isCompleteFor cls.id
              ((allSections.filter (fun s => cls.section_ids.contains s.id)).length * cls.laps))))).map
            (fun p : LeaderboardEntry × Nat => p.1) :=
        List.mem_map.mpr ⟨p, hp, rfl⟩
      rw [assignRanks_map_fst] at hp1
      have hmem := (mem_jsSort _ _ _).mp hp1
      have hcomp := (List.mem_filter.mp hmem).2
      simp only [isCompleteFor_iff] at hcomp
      simpa using hcomp
    · rcases List.mem_map.mp hr with ⟨e, he, rfl⟩
      have hmem := (mem_jsSort _ _ _).mp he
      have hfb : isCompleteFor cls.id
          ((allSections.filter (fun s => cls.section_ids.contains s.id)).length * cls.laps) e
          = false := by
        have := (List.mem_filter.mp hmem).2
        simpa using this
      constructor
      · intro hfalse
        exact absurd rfl hfalse
      · intro hex
        have hct : isCompleteFor cls.id
            ((allSections.filter (fun s => cls.section_ids.contains s.id)).length * cls.laps) e
            = true :=
          (isCompleteFor_iff _ _ _).mpr (by simpa using hex)
        rw [hfb] at hct
        exact absurd hct (by simp)

theorem completed_prefix_index {AR : List (LeaderboardEntry × Nat)}
    {SI : List LeaderboardEntry} {k : Nat}
    (hk : k < ((AR.map (fun p => ({ entry := p.1, rank := p.2, completed := true } : Ranked))) ++
               (SI.map (fun e => ({ entry := e, rank := 0, completed := false } : Ranked)))).length)
    (hc : (((AR.map (fun p => ({ entry := p.1, rank := p.2, completed := true } : Ranked))) ++
            (SI.map (fun e => ({ entry := e, rank := 0, completed := false } : Ranked)))).get
            ⟨k, hk⟩).completed = true) :
    k < AR.length := by
  by_contra hge
  push_neg at hge
  have hlen1 : (AR.map (fun p =>
      ({ entry := p.1, rank := p.2, completed := true } : Ranked))).length ≤ k := by
    rw [List.length_map]
    exact hge
  have hk2 : k - (AR.map (fun p =>
      ({ entry := p.1, rank := p.2, completed := true } : Ranked))).length <
      (SI.map (fun e => ({ entry := e, rank := 0, completed := false } : Ranked))).length := by
    rw [List.length_append] at hk
    omega
  have heq := @List.get_append_right _ k
    (AR.map (fun p => ({ entry := p.1, rank := p.2, completed := true } : Ranked)))
    (SI.map (fun e => ({ entry := e, rank := 0, completed := false } : Ranked)))
    hlen1 hk hk2
  rw [heq] at hc
  have hmem := List.get_mem
    (SI.map (fun e => ({ entry := e, rank := 0, completed := false } : Ranked))) _ hk2
  rcases List.mem_map.mp hmem with ⟨e, _, hge⟩
  rw [← hge] at hc
  exact Bool.noConfusion hc

theorem csv_prefix_index {AR : List (LeaderboardEntry × Nat)}
    {SI : List LeaderboardEntry} {k : Nat}
    (hk : k < ((AR.map (fun p => ({ entry := p.1, rank := some p.2 } : CsvRanked))) ++
               (SI.map (fun e => ({ entry := e, rank := none } : CsvRanked)))).length)
    (hc : (((AR.map (fun p => ({ entry := p.1, rank := some p.2 } : CsvRanked))) ++
            (SI.map (fun e => ({ entry := e, rank := none } : CsvRanked)))).get
            ⟨k, hk⟩).rank ≠ none) :
    k < AR.length := by
  by_contra hge
  push_neg at hge
  have hlen1 : (AR.map (fun p =>
      ({ entry := p.1, rank := some p.2 } : CsvRanked))).length ≤ k := by
    rw [List.length_map]
    exact hge
  have hk2 : k - (AR.map (fun p =>
      ({ entry := p.1, rank := some p.2 } : CsvRanked))).length <
      (SI.map (fun e => ({ entry := e, rank := none } : CsvRanked))).length := by
    rw [List.length_append] at hk
    omega
  have heq := @List.get_append_right _ k
    (AR.map (fun p => ({ entry := p.1, rank := some p.2 } : CsvRanked)))
    (SI.map (fun e => ({ entry := e, rank := none } : CsvRanked)))
    hlen1 hk hk2
  rw [heq] at hc
  have hmem := List.get_mem
    (SI.map (fun e => ({ entry := e, rank := none } : CsvRanked))) _ hk2
  rcases List.mem_map.mp hmem with ⟨e, _, hge⟩
  rw [← hge] at hc
  exact hc rfl

theorem ranked_adjacent_aux (clsId : String) (l SI : List LeaderboardEntry) (i : Nat)
    (hi : i + 1 < (((assignRanks clsId l).map
        (fun p => ({ entry := p.1, rank := p.2, completed := true } : Ranked))) ++
        (SI.map (fun e => ({ entry := e, rank := 0, completed := false } : Ranked)))).length)
    (hi0 : i < (((assignRanks clsId l).map
        (fun p => ({ entry := p.1, rank := p.2, completed := true } : Ranked))) ++
        (SI.map (fun e => ({ entry := e, rank := 0, completed := false } : Ranked)))).length)
    (hci : ((((assignRanks clsId l).map
        (fun p => ({ entry := p.1, rank := p.2, completed := true } : Ranked))) ++
        (SI.map (fun e => ({ entry := e, rank := 0, completed := false } : Ranked)))).get
        ⟨i + 1, hi⟩).completed = true) :
    (rankKey clsId ((((assignRanks clsId l).map
        (fun p => ({ entry := p.1, rank := p.2, completed := true } : Ranked))) ++
        (SI.map (fun e => ({ entry := e, rank := 0, completed := false } : Ranked)))).get
        ⟨i + 1, hi⟩).entry =
     rankKey clsId ((((assignRanks clsId l).map
        (fun p => ({ entry := p.1, rank := p.2, completed := true } : Ranked))) ++
        (SI.map (fun e => ({ entry := e, rank := 0, completed := false } : Ranked)))).get
        ⟨i, hi0⟩).entry →
     ((((assignRanks clsId l).map
        (fun p => ({ entry := p.1, rank := p.2, completed := true } : Ranked))) ++
        (SI.map (fun e => ({ entry := e, rank := 0, completed := false } : Ranked)))).get
        ⟨i + 1, hi⟩).rank =
     ((((assignRanks clsId l).map
        (fun p => ({ entry := p.1, rank := p.2, completed := true } : Ranked))) ++
        (SI.map (fun e => ({ entry := e, rank := 0, completed := false } : Ranked)))).get
        ⟨i, hi0⟩).rank) ∧
    (rankKey clsId ((((assignRanks clsId l).map
        (fun p => ({ entry := p.1, rank := p.2, completed := true } : Ranked))) ++
        (SI.map (fun e => ({ entry := e, rank := 0, completed := false } : Ranked)))).get
        ⟨i + 1, hi⟩).entry ≠
     rankKey clsId ((((assignRanks clsId l).map
        (fun p => ({ entry := p.1, rank := p.2, completed := true } : Ranked))) ++
        (SI.map (fun e => ({ entry := e, rank := 0, completed := false } : Ranked)))).get
        ⟨i, hi0⟩).entry →
     ((((assignRanks clsId l).map
        (fun p => ({ entry := p.1, rank := p.2, completed := true } : Ranked))) ++
        (SI.map (fun e => ({ entry := e, rank := 0, completed := false } : Ranked)))).get
        ⟨i + 1, hi⟩).rank = i + 2) := by
  have hlt1 : i + 1 < (assignRanks clsId l).length := completed_prefix_index hi hci
  have hlt0 : i < (assignRanks clsId l).length := Nat.lt_of_succ_lt hlt1
  have hm1 : i + 1 < ((assignRanks clsId l).map
      (fun p => ({ entry := p.1, rank := p.2, completed := true } : Ranked))).length := by
    rw [List.length_map]
    exact hlt1
  have hm0 : i < ((assignRanks clsId l).map
      (fun p => ({ entry := p.1, rank := p.2, completed := true } : Ranked))).length := by
    rw [List.length_map]
    exact hlt0
  have hg1 : (((assignRanks clsId l).map
      (fun p => ({ entry := p.1, rank := p.2, completed := true } : Ranked))) ++
      (SI.map (fun e => ({ entry := e, rank := 0, completed := false } : Ranked)))).get
      ⟨i + 1, hi⟩ =
      { entry := ((assignRanks clsId l).get ⟨i + 1, hlt1⟩).1,
        rank := ((assignRanks clsId l).get ⟨i + 1, hlt1⟩).2, completed := true } := by
    rw [List.get_append _ hm1, List.get_map]
  have hg0 : (((assignRanks clsId l).map
      (fun p => ({ entry := p.1, rank := p.2, completed := true } : Ranked))) ++
      (SI.map (fun e => ({ entry := e, rank := 0, completed := false } : Ranked)))).get
      ⟨i, hi0⟩ =
      { entry := ((assignRanks clsId l).get ⟨i, hlt0⟩).1,
        rank := ((assignRanks clsId l).get ⟨i, hlt0⟩).2, completed := true } := by
    rw [List.get_append _ hm0, List.get_map]
  rw [hg1, hg0]
  exact assignRanks_adjacent clsId l i hlt1 hlt0

theorem csv_adjacent_aux (clsId : String) (l SI : List LeaderboardEntry) (j : Nat)
    (hj : j + 1 < (((assignRanks clsId l).map
        (fun p => ({ entry := p.1, rank := some p.2 } : CsvRanked))) ++
        (SI.map (fun e => ({ entry := e, rank := none } : CsvRanked)))).length)
    (hj0 : j < (((assignRanks clsId l).map
        (fun p => ({ entry := p.1, rank := some p.2 } : CsvRanked))) ++
        (SI.map (fun e => ({ entry := e, rank := none } : CsvRanked)))).length)
    (hcj : ((((assignRanks clsId l).map
        (fun p => ({ entry := p.1, rank := some p.2 } : CsvRanked))) ++
        (SI.map (fun e => ({ entry := e, rank := none } : CsvRanked)))).get
        ⟨j + 1, hj⟩).rank ≠ none) :
    (rankKey clsId ((((assignRanks clsId l).map
        (fun p => ({ entry := p.1, rank := some p.2 } : CsvRanked))) ++
        (SI.map (fun e => ({ entry := e, rank := none } : CsvRanked)))).get
        ⟨j + 1, hj⟩).entry =
     rankKey clsId ((((assignRanks clsId l).map
        (fun p => ({ entry := p.1, rank := some p.2 } : CsvRanked))) ++
        (SI.map (fun e => ({ entry := e, rank := none } : CsvRanked)))).get
        ⟨j, hj0⟩).entry →
     ((((assignRanks clsId l).map
        (fun p => ({ entry := p.1, rank := some p.2 } : CsvRanked))) ++
        (SI.map (fun e => ({ entry := e, rank := none } : CsvRanked)))).get
        ⟨j + 1, hj⟩).rank =
     ((((assignRanks clsId l).map
        (fun p => ({ entry := p.1, rank := some p.2 } : CsvRanked))) ++
        (SI.map (fun e => ({ entry := e, rank := none } : CsvRanked)))).get
        ⟨j, hj0⟩).rank) ∧
    (rankKey clsId ((((assignRanks clsId l).map
        (fun p => ({ entry := p.1, rank := some p.2 } : CsvRanked))) ++
        (SI.map (fun e => ({ entry := e, rank := none } : CsvRanked)))).get
        ⟨j + 1, hj⟩).entry ≠
     rankKey clsId ((((assignRanks clsId l).map
        (fun p => ({ entry := p.1, rank := some p.2 } : CsvRanked))) ++
        (SI.map (fun e => ({ entry := e, rank := none } : CsvRanked)))).get
        ⟨j, hj0⟩).entry →
     ((((assignRanks clsId l).map
        (fun p => ({ entry := p.1, rank := some p.2 } : CsvRanked))) ++
        (SI.map (fun e => ({ entry := e, rank := none } : CsvRanked)))).get
        ⟨j + 1, hj⟩).rank = some (j + 2)) := by
  have hlt1 : j + 1 < (assignRanks clsId l).length := csv_prefix_index hj hcj
  have hlt0 : j < (assignRanks clsId l).length := Nat.lt_of_succ_lt hlt1
  have hm1 : j + 1 < ((assignRanks clsId l).map
      (fun p => ({ entry := p.1, rank := some p.2 } : CsvRanked))).length := by
    rw [List.length_map]
    exact hlt1
  have hm0 : j < ((assignRanks clsId l).map
      (fun p => ({ entry := p.1, rank := some p.2 } : CsvRanked))).length := by
    rw [List.length_map]
    exact hlt0
  have hg1 : (((assignRanks clsId l).map
      (fun p => ({ entry := p.1, rank := some p.2 } : CsvRanked))) ++
      (SI.map (fun e => ({ entry := e, rank := none } : CsvRanked)))).get
      ⟨j + 1, hj⟩ =
      { entry := ((assignRanks clsId l).get ⟨j + 1, hlt1⟩).1,
        rank := some ((assignRanks clsId l).get ⟨j + 1, hlt1⟩).2 } := by
    rw [List.get_append _ hm1, List.get_map]
  have hg0 : (((assignRanks clsId l).map
      (fun p => ({ entry := p.1, rank := some p.2 } : CsvRanked))) ++
      (SI.map (fun e => ({ entry := e, rank := none } : CsvRanked)))).get
      ⟨j, hj0⟩ =
      { entry := ((assignRanks clsId l).get ⟨j, hlt0⟩).1,
        rank := some ((assignRanks clsId l).get ⟨j, hlt0⟩).2 } := by
    rw [List.get_append _ hm0, List.get_map]
  rw [hg1, hg0]
  have hadj := assignRanks_adjacent clsId l j hlt1 hlt0
  constructor
  · intro heq
    exact congrArg some (hadj.1 heq)
  · intro hne
    exact congrArg some (hadj.2 hne)

/-- C6: in both renderers' completed partitions, an entry whose
`(total, lastScoredAt)` key equals its predecessor's inherits the
predecessor's rank, and an entry with a distinct key receives its
1-based position (index + 2 for the entry at 0-based index + 1), not the
previous rank plus one. -/
theorem rank_ties_and_positions (allSections : List Section) (cls : ClassConfig)
    (lb : List LeaderboardEntry) (i j : Nat)
    (hi : i + 1 < (getRankedByClass cls lb).length)
    (hi0 : i < (getRankedByClass cls lb).length)
    (hci : ((getRankedByClass cls lb).get ⟨i + 1, hi⟩).completed = true)
    (hj : j + 1 < (buildClassRanked allSections cls lb).length)
    (hj0 : j < (buildClassRanked allSections cls lb).length)
    (hcj : ((buildClassRanked allSections cls lb).get ⟨j + 1, hj⟩).rank ≠ none) :
    (rankKey cls.id ((getRankedByClass cls lb).get ⟨i + 1, hi⟩).entry =
       rankKey cls.id ((getRankedByClass cls lb).get ⟨i, hi0⟩).entry →
     ((getRankedByClass cls lb).get ⟨i + 1, hi⟩).rank =
       ((getRankedByClass cls lb).get ⟨i, hi0⟩).rank) ∧
    (rankKey cls.id ((getRankedByClass cls lb).get ⟨i + 1, hi⟩).entry ≠
       rankKey cls.id ((getRankedByClass cls lb).get ⟨i, hi0⟩).entry →
     ((getRankedByClass cls lb).get ⟨i + 1, hi⟩).rank = i + 2) ∧
    (rankKey cls.id ((buildClassRanked allSections cls lb).get ⟨j + 1, hj⟩).entry =
       rankKey cls.id ((buildClassRanked allSections cls lb).get ⟨j, hj0⟩).entry →
     ((buildClassRanked allSections cls lb).get ⟨j + 1, hj⟩).rank =
       ((buildClassRanked allSections cls lb).get ⟨j, hj0⟩).rank) ∧
    (rankKey cls.id ((buildClassRanked allSections cls lb).get ⟨j + 1, hj⟩).entry ≠
       rankKey cls.id ((buildClassRanked allSections cls lb).get ⟨j, hj0⟩).entry →
     ((buildClassRanked allSections cls lb).get ⟨j + 1, hj⟩).rank = some (j + 2)) := by
  have h1 := ranked_adjacent_aux cls.id
    (jsSort (fun a b => decide (cmpFinal cls.id a b ≤ 0))
      ((lb.filter (fun c => c.classes.contains cls.id)).filter
        (isCompleteFor cls.id (cls.section_ids.length * cls.laps))))
    (jsSort (fun a b => decide (cmpFinal cls.id a b ≤ 0))
      ((lb.filter (fun c => c.classes.contains cls.id)).filter
        (fun c => !(isCompleteFor cls.id (cls.section_ids.length * cls.laps) c))))
    i hi hi0 hci
  have h2 := csv_adjacent_aux cls.id
    (jsSort (fun a b => decide (cmpCsv cls.id a b ≤ 0))
      ((lb.filter (fun c => c.classes.contains cls.id)).filter
        (isCompleteFor cls.id
          ((allSections.filter (fun s => cls.section_ids.contains s.id)).length * cls.laps))))
    (jsSort (fun a b => decide (cmpCsv cls.id a b ≤ 0))
      ((lb.filter (fun c => c.classes.contains cls.id)).filter
        (fun c => !(isCompleteFor cls.id
          ((allSections.filter (fun s => cls.section_ids.contains s.id)).length * cls.laps) c))))
    j hj hj0 hcj
  exact ⟨h1.1, h1.2, h2.1, h2.2⟩

/-- Witness for `completion_partition` on the ranking fixture (every
entry there has a nonempty timestamp, so the client-side sortedness
hypothesis is discharged). -/
theorem completion_partition_witness :
    (∀ e ∈ lbC6, keyTime clsD.id e ≠ 0) ∧
    ((∃ L1 L2, getRankedByClass clsD lbC6 = L1 ++ L2 ∧
      (∀ r ∈ L1, r.completed = true) ∧
      (∀ r ∈ L2, r.completed = false ∧ r.rank = 0) ∧
      ((∀ e ∈ lbC6, keyTime clsD.id e ≠ 0) →
        L1.Pairwise (fun a b => cmpFinal clsD.id a.entry b.entry ≤ 0) ∧
        L2.Pairwise (fun a b => cmpFinal clsD.id a.entry b.entry ≤ 0))) ∧
    (∀ r ∈ getRankedByClass clsD lbC6,
      (r.completed = true ↔ ∃ ct, lookupCT r.entry clsD.id = some ct ∧
        clsD.section_ids.length * clsD.laps ≤ ct.sections_done)) ∧
    (∃ M1 M2, buildClassRanked [{ id := 1, name := "S1" }] clsD lbC6 = M1 ++ M2 ∧
      (∀ r ∈ M1, r.rank ≠ none) ∧
      (∀ r ∈ M2, r.rank = none) ∧
      M1.Pairwise (fun a b => cmpCsv clsD.id a.entry b.entry ≤ 0) ∧
      M2.Pairwise (fun a b => cmpCsv clsD.id a.entry b.entry ≤ 0)) ∧
    (∀ r ∈ buildClassRanked [{ id := 1, name := "S1" }] clsD lbC6,
      (r.rank ≠ none ↔ ∃ ct, lookupCT r.entry clsD.id = some ct ∧
        (List.filter (fun s => clsD.section_ids.contains s.id)
          [({ id := 1, name := "S1" } : Section)]).length * clsD.laps
          ≤ ct.sections_done))) ∧
    (getRankedByClass clsD lbC6).map (fun r => r.rank) = [1, 1, 3, 0] :=
  ⟨by decide, completion_partition [{ id := 1, name := "S1" }] clsD lbC6, by decide⟩

/-- Witness for `rank_ties_and_positions` at the third row (0-based
index 2) of the ranking fixture: its key differs from its predecessor's,
so it gets rank 3 (= position), not the previous rank plus one; the tied
pair ahead shares rank 1. -/
theorem rank_ties_and_positions_witness :
    ((getRankedByClass clsD lbC6).get ⟨1 + 1, by decide⟩).completed = true ∧
    ((buildClassRanked [{ id := 1, name := "S1" }] clsD lbC6).get
      ⟨1 + 1, by decide⟩).rank ≠ none ∧
    ((getRankedByClass clsD lbC6).map (fun r => r.rank) = [1, 1, 3, 0] ∧
     (buildClassRanked [{ id := 1, name := "S1" }] clsD lbC6).map (fun r => r.rank) =
       [some 1, some 1, some 3, none]) ∧
    ((rankKey clsD.id ((getRankedByClass clsD lbC6).get ⟨1 + 1, by decide⟩).entry =
        rankKey clsD.id ((getRankedByClass clsD lbC6).get ⟨1, by decide⟩).entry →
      ((getRankedByClass clsD lbC6).get ⟨1 + 1, by decide⟩).rank =
        ((getRankedByClass clsD lbC6).get ⟨1, by decide⟩).rank) ∧
     (rankKey clsD.id ((getRankedByClass clsD lbC6).get ⟨1 + 1, by decide⟩).entry ≠
        rankKey clsD.id ((getRankedByClass clsD lbC6).get ⟨1, by decide⟩).entry →
      ((getRankedByClass clsD lbC6).get ⟨1 + 1, by decide⟩).rank = 1 + 2) ∧
     (rankKey clsD.id ((buildClassRanked [{ id := 1, name := "S1" }] clsD lbC6).get
        ⟨1 + 1, by decide⟩).entry =
        rankKey clsD.id ((buildClassRanked [{ id := 1, name := "S1" }] clsD lbC6).get
        ⟨1, by decide⟩).entry →
      ((buildClassRanked [{ id := 1, name := "S1" }] clsD lbC6).get ⟨1 + 1, by decide⟩).rank =
        ((buildClassRanked [{ id := 1, name := "S1" }] clsD lbC6).get ⟨1, by decide⟩).rank) ∧
     (rankKey clsD.id ((buildClassRanked [{ id := 1, name := "S1" }] clsD lbC6).get
        ⟨1 + 1, by decide⟩).entry ≠
        rankKey clsD.id ((buildClassRanked [{ id := 1, name := "S1" }] clsD lbC6).get
        ⟨1, by decide⟩).entry →
      ((buildClassRanked [{ id := 1, name := "S1" }] clsD lbC6).get ⟨1 + 1, by decide⟩).rank =
        some (1 + 2))) :=
  ⟨by decide, by decide, ⟨by decide, by decide⟩,
    rank_ties_and_positions [{ id := 1, name := "S1" }] clsD lbC6 1 1
      (by decide) (by decide) (by decide) (by decide) (by decide) (by decide)⟩

/-- C10 helper: with an unknown competitor id, the gate returns its
default permissive status. -/
theorem canStartNewLap_of_missing {db : Db} {cid sid : Nat}
    (hnone : getCompetitor db cid = none) :
    canStartNewLap db cid sid =
      { canScore := true, currentLap := 1, incompleteSections := [], maxLap := 3 } := by
  unfold canStartNewLap
  rw [hnone]

/-- C10: for a competitor id not present in the store, the gate reports
the attempt as allowed with `currentLap = 1`, no blocking sections and a
lap cap of 3, and a submission whose derived lap is at most 3 succeeds,
appending a ledger row rather than failing with any not-found error. -/
theorem missing_competitor_scores_accepted (db : Db) (cid sid : Nat)
    (p : Option Int) (d : Bool)
    (hnone : getCompetitor db cid = none)
    (hle : getNextLap db cid sid ≤ 3) :
    canStartNewLap db cid sid =
      { canScore := true, currentLap := 1, incompleteSections := [], maxLap := 3 } ∧
    (postScore db cid sid p d).2 =
      .ok { id := db.nextScoreId, competitor_id := cid, section_id := sid,
            lap := getNextLap db cid sid, points := p, is_dnf := d,
            created_at := db.now, updated_at := none } ∧
    (postScore db cid sid p d).1.scores = db.scores ++
      [{ id := db.nextScoreId, competitor_id := cid, section_id := sid,
         lap := getNextLap db cid sid, points := p, is_dnf := d,
         created_at := db.now, updated_at := none }] := by
  have hcan := @canStartNewLap_of_missing db cid sid hnone
  have hnotgt : ¬ getNextLap db cid sid > 3 := by omega
  refine ⟨hcan, ?_, ?_⟩ <;>
    simp [postScore, hcan, hnotgt, createScore_at_getNextLap]

/-- Witness for `missing_competitor_scores_accepted`: competitor id 2 is
not registered in the fixture, yet submitting for it succeeds. -/
theorem missing_competitor_scores_accepted_witness :
    getCompetitor exDbC1 2 = none ∧ getNextLap exDbC1 2 1 ≤ 3 ∧
    (canStartNewLap exDbC1 2 1 =
      { canScore := true, currentLap := 1, incompleteSections := [], maxLap := 3 } ∧
    (postScore exDbC1 2 1 (some 5) false).2 =
      .ok { id := exDbC1.nextScoreId, competitor_id := 2, section_id := 1,
            lap := getNextLap exDbC1 2 1, points := some 5, is_dnf := false,
            created_at := exDbC1.now, updated_at := none } ∧
    (postScore exDbC1 2 1 (some 5) false).1.scores = exDbC1.scores ++
      [{ id := exDbC1.nextScoreId, competitor_id := 2, section_id := 1,
         lap := getNextLap exDbC1 2 1, points := some 5, is_dnf := false,
         created_at := exDbC1.now, updated_at := none }]) :=
  ⟨by decide, by decide,
    missing_competitor_scores_accepted exDbC1 2 1 (some 5) false (by decide) (by decide)⟩

end TrialScore
